import Mathlib

/-!
# A shallow embedding of the clj-interpreter core

This file embeds the data model and the operations of the small Clojure-subset
interpreter (tokenizer, structural equality, evaluator with its special forms,
`recur` trampoline and quasiquote walker, a handful of native functions, and
the session wrapper) and proves properties about them.

Modelling conventions, applied uniformly:

* JS numbers (IEEE-754 doubles) are modelled as `Int`.  No theorem below
  depends on non-integral arithmetic: the claims that touch numbers only move
  them around unevaluated.
* Environments are modelled as an arena (`Store`, a list of `Frame`s) indexed
  by integer ids, exactly the "arena keyed by integer ids" discipline the
  design notes describe; JS object references become indices, and mutation of
  an environment becomes an update of the store, which every evaluation
  function threads through and returns alongside its result.
* Thrown JS exceptions become an `Except`-style error channel: `EvaluationError`
  and the non-error `RecurSignal` are separate constructors, so that `catch
  (e) { if (e instanceof RecurSignal) ... }` translates to a `match`.
* The interpreter's unbounded loops and host-stack recursion are made total
  with an explicit fuel parameter; running out of fuel is a distinct outcome
  (`fuelOut`) that no theorem identifies with a real result.
* Where the JS source would let the host value `undefined` escape into value
  positions (out-of-range element access on malformed special forms), the
  model produces the distinct outcome `jsUndefined`; no claim exercises these
  edges.
* Native functions carry their name; application dispatches on the name to
  the translations of the `core-env.ts` closures that the claims are about.
-/

namespace CljI

/-- Runtime values (`types.ts`, `CljValue`).  `function`/`macro` capture their
environment as an arena index (see the module conventions above). -/
inductive CljValue where
  | number (v : Int)
  | str (v : String)
  | boolean (v : Bool)
  | nil
  | keyword (name : String)
  | symbol (name : String)
  | list (value : List CljValue)
  | vector (value : List CljValue)
  | map (entries : List (CljValue × CljValue))
  | function (arities : List (List String × Option String × List CljValue)) (env : Nat)
  | nativeFunction (name : String)
  | macroV (arities : List (List String × Option String × List CljValue)) (env : Nat)
deriving Repr

/-- An arity of a function or macro (`types.ts`, `Arity`): parameter names,
optional rest-parameter name, body forms.  (The source stores parameters as
symbol values; only their `.name` is ever read, so the model stores the
names.) -/
abbrev Arity := List String × Option String × List CljValue

namespace Arity

def params (a : Arity) : List String := a.1
def restParam (a : Arity) : Option String := a.2.1
def body (a : Arity) : List CljValue := a.2.2

end Arity

/-! ## assertions.ts: truthiness and structural equality -/

/-- `isFalsy` (assertions.ts): only `nil` and `false` are falsy. -/
def isFalsy : CljValue → Bool
  | .nil => true
  | .boolean b => !b
  | _ => false

def isTruthy (v : CljValue) : Bool := !isFalsy v

/-- Pairwise equality of two lists under an equality oracle, mirroring
`a.value.every((value, index) => isEqual(value, b.value[index]))`; the caller
has already checked the lengths agree. -/
def pairAll (eq : CljValue → CljValue → Bool) : List CljValue → List CljValue → Bool
  | x :: xs, y :: ys => eq x y && pairAll eq xs ys
  | _, _ => true

/-- `entries.find(([k]) => isEqual(k, key))` under an equality oracle. -/
def keyFind (eq : CljValue → CljValue → Bool) (key : CljValue) :
    List (CljValue × CljValue) → Option (CljValue × CljValue)
  | [] => none
  | e :: rest => if eq e.1 key then some e else keyFind eq key rest

/-- The per-key body of the map equality handler: both maps must contain a
matching entry and the first matching entries' values must be equal. -/
def keysOk (eq : CljValue → CljValue → Bool) (keys : List CljValue)
    (ea eb : List (CljValue × CljValue)) : Bool :=
  keys.all fun k =>
    match keyFind eq k ea, keyFind eq k eb with
    | some x, some y => eq x.2 y.2
    | _, _ => false

/-- Fuel-indexed structural equality (`isEqual` and `equalityHandlers`,
assertions.ts).  Kinds without a handler (functions, native functions,
macros) compare unequal, as does a kind mismatch.  The fuel is a model
artifact; `isEqual` below supplies enough of it for the recursion depth of
the real function. -/
def isEqualN : Nat → CljValue → CljValue → Bool
  | 0, _, _ => false
  | n + 1, a, b =>
    match a, b with
    | .number x, .number y => x == y
    | .str x, .str y => x == y
    | .boolean x, .boolean y => x == y
    | .nil, .nil => true
    | .symbol x, .symbol y => x == y
    | .keyword x, .keyword y => x == y
    | .vector x, .vector y => x.length == y.length && pairAll (isEqualN n) x y
    | .list x, .list y => x.length == y.length && pairAll (isEqualN n) x y
    | .map ea, .map eb =>
      ea.length == eb.length &&
        keysOk (isEqualN n) (ea.map Prod.fst ++ eb.map Prod.fst) ea eb
    | _, _ => false

mutual

/-- Structural size of a value, used only to compute sufficient fuel for
`isEqualN`.  Kinds that the equality handlers never recurse into count 1. -/
def csize : CljValue → Nat
  | .number _ => 1
  | .str _ => 1
  | .boolean _ => 1
  | .nil => 1
  | .keyword _ => 1
  | .symbol _ => 1
  | .list vs => 1 + csizeList vs
  | .vector vs => 1 + csizeList vs
  | .map es => 1 + csizeEntries es
  | .function _ _ => 1
  | .nativeFunction _ => 1
  | .macroV _ _ => 1

def csizeList : List CljValue → Nat
  | [] => 1
  | v :: vs => 1 + csize v + csizeList vs

def csizeEntries : List (CljValue × CljValue) → Nat
  | [] => 1
  | e :: es => 1 + csize e.1 + csize e.2 + csizeEntries es

end

/-- Sufficient fuel for `isEqualN` on a pair of values. -/
def eqFuel (a b : CljValue) : Nat := max (csize a) (csize b)

/-- `isEqual` (assertions.ts). -/
def isEqual (a b : CljValue) : Bool := isEqualN (eqFuel a b) a b

/-! ## tokenizer.ts: scanner and token production -/

structure Cursor where
  line : Nat
  col : Nat
  offset : Nat
deriving Repr, DecidableEq

inductive TokenKind where
  | LParen | RParen | LBracket | RBracket | LBrace | RBrace
  | String | Number | Keyword | Quote | Quasiquote | Unquote | UnquoteSplicing
  | Comment | Whitespace | Symbol
deriving Repr, DecidableEq

/-- A token (`types.ts`).  `value` holds the textual payload; for `Number`
tokens it is the raw lexeme (the source converts it with the host's
`Number(...)`, a double conversion outside this embedding); `Whitespace`
tokens carry no payload and store `""`. -/
structure Token where
  kind : TokenKind
  value : String
  start : Cursor
  stop : Cursor
deriving Repr, DecidableEq

/-- The scanner state of `makeScanner` (tokenizer.ts): the full input plus a
`line`/`col`/`offset` cursor. -/
structure Scanner where
  input : List Char
  line : Nat
  col : Nat
  offset : Nat
deriving Repr

def Scanner.peek (s : Scanner) (ahead : Nat := 0) : Option Char :=
  s.input.get? (s.offset + ahead)

def Scanner.isAtEnd (s : Scanner) : Bool :=
  s.input.length ≤ s.offset

def Scanner.position (s : Scanner) : Cursor :=
  ⟨s.line, s.col, s.offset⟩

def Scanner.advance (s : Scanner) : Option Char × Scanner :=
  match s.input.get? s.offset with
  | none => (none, s)
  | some ch =>
    if ch = '\n' then
      (some ch, { s with offset := s.offset + 1, line := s.line + 1, col := 0 })
    else
      (some ch, { s with offset := s.offset + 1, col := s.col + 1 })

def consumeWhileGo (p : Char → Bool) : Nat → Scanner → List Char × Scanner
  | 0, s => ([], s)
  | n + 1, s =>
    match s.peek 0 with
    | none => ([], s)
    | some c =>
      if p c then
        let s' := (s.advance).2
        let (rest, s'') := consumeWhileGo p n s'
        (c :: rest, s'')
      else ([], s)

/-- `scanner.consumeWhile` (the fuel, bounded by the input length, is a model
artifact: the loop consumes one character per step). -/
def Scanner.consumeWhile (s : Scanner) (p : Char → Bool) : String × Scanner :=
  let (cs, s') := consumeWhileGo p s.input.length s
  (String.mk cs, s')

def isNewline (c : Char) : Bool := c = '\n'
def isWhitespaceCh (c : Char) : Bool :=
  c = ' ' || c = ',' || c = '\n' || c = '\r' || c = '\t'
def isCommentCh (c : Char) : Bool := c = ';'
def isDigitCh (c : Char) : Bool := c.isDigit
def isDelimiterCh (c : Char) : Bool :=
  c = '(' || c = ')' || c = '[' || c = ']' || c = Char.ofNat 123 || c = Char.ofNat 125

def parseWhitespace (s : Scanner) : Token × Scanner :=
  let start := s.position
  let (_, s') := s.consumeWhile isWhitespaceCh
  (⟨.Whitespace, "", start, s'.position⟩, s')

def parseComment (s : Scanner) : Token × Scanner :=
  let start := s.position
  let s1 := (s.advance).2
  let (value, s2) := s1.consumeWhile (fun c => !isNewline c)
  let s3 := if !s2.isAtEnd && s2.peek 0 = some '\n' then (s2.advance).2 else s2
  (⟨.Comment, value, start, s3.position⟩, s3)

/-- The body of `parseString`'s scan loop; fuel bounded by the input length. -/
def parseStringGo : Nat → Scanner → List Char → (List Char × Bool × Scanner)
  | 0, s, buf => (buf, false, s)
  | n + 1, s, buf =>
    match s.peek 0 with
    | none => (buf, false, s)
    | some ch =>
      if ch = '\\' then
        let s1 := (s.advance).2
        match s1.peek 0 with
        | none => parseStringGo n s1 buf
        | some nextChar =>
          let c : Char :=
            if nextChar = '"' then '"'
            else if nextChar = '\\' then '\\'
            else if nextChar = 'n' then '\n'
            else if nextChar = 'r' then '\r'
            else if nextChar = 't' then '\t'
            else nextChar
          let s2 := if s1.isAtEnd then s1 else (s1.advance).2
          parseStringGo n s2 (buf ++ [c])
      else if ch = '"' then
        ((buf, true, (s.advance).2))
      else
        parseStringGo n ((s.advance).2) (buf ++ [ch])

def parseString (s : Scanner) : Except String (Token × Scanner) :=
  let start := s.position
  let s1 := (s.advance).2
  let (buf, closed, s2) := parseStringGo s1.input.length s1 []
  if closed then
    .ok (⟨.String, String.mk buf, start, s2.position⟩, s2)
  else
    .error ("Unterminated string detected at " ++ toString start.offset)

def parseKeyword (s : Scanner) : Token × Scanner :=
  let start := s.position
  let (value, s') := s.consumeWhile (fun c =>
    c = ':' || (!isWhitespaceCh c && !isDelimiterCh c && !isCommentCh c))
  (⟨.Keyword, value, start, s'.position⟩, s')

def parseNumber (s : Scanner) : Except String (Token × Scanner) :=
  let start := s.position
  let (sign, s1) : String × Scanner :=
    if s.peek 0 = some '-' then ("-", (s.advance).2) else ("", s)
  let (digits, s2) := s1.consumeWhile isDigitCh
  let value := sign ++ digits
  let (value, s3) : String × Scanner :=
    if !s2.isAtEnd && s2.peek 0 = some '.' &&
        (match s2.peek 1 with | some c => isDigitCh c | none => false) then
      let s21 := (s2.advance).2
      let (frac, s22) := s21.consumeWhile isDigitCh
      (value ++ "." ++ frac, s22)
    else (value, s2)
  if !s3.isAtEnd && s3.peek 0 = some '.' then
    let (rest, _) := s3.consumeWhile (fun c => !isWhitespaceCh c && !isDelimiterCh c)
    .error ("Invalid number format at line " ++ toString start.line ++ " column "
      ++ toString start.col ++ ": \"" ++ value ++ rest ++ "\"")
  else
    .ok (⟨.Number, value, start, s3.position⟩, s3)

def parseSymbolTok (s : Scanner) : Token × Scanner :=
  let start := s.position
  let (value, s') := s.consumeWhile (fun c =>
    !isWhitespaceCh c && !isDelimiterCh c && !isCommentCh c)
  (⟨.Symbol, value, start, s'.position⟩, s')

/-- Emit a token for a single delimiter-like character. -/
def singleCharToken (kind : TokenKind) (value : String) (s : Scanner) :
    Token × Scanner :=
  let start := s.position
  let s' := (s.advance).2
  (⟨kind, value, start, s'.position⟩, s')

/-- `parseNextToken` (tokenizer.ts).

Modelled from the spec: the checked-in copy of `tokenizer.ts` is an older
revision that lacks the reader-macro branches for `` ` ``, `~` and `~@`,
although the current `types.ts` declares the `Quasiquote`/`Unquote`/
`UnquoteSplicing` token kinds and `parser.ts` consumes them.  Those three
branches (placed, like the `'` branch, before the catch-all symbol rule) are
therefore modelled from the spec's words: a backtick yields a `Quasiquote`
token, `~@` one `UnquoteSplicing` token spanning both characters, and a lone
`~` an `Unquote` token.  Every other branch is translated from the source.
When the scanner is at the end of input every guard is false and the
catch-all symbol rule produces an empty `Symbol` token, as in the source. -/
def parseNextToken (s : Scanner) : Except String (Token × Scanner) :=
  match s.peek 0 with
  | none => .ok (parseSymbolTok s)
  | some char =>
    if isWhitespaceCh char then .ok (parseWhitespace s)
    else if isCommentCh char then .ok (parseComment s)
    else if char = '(' then .ok (singleCharToken .LParen "(" s)
    else if char = ')' then .ok (singleCharToken .RParen ")" s)
    else if char = '[' then .ok (singleCharToken .LBracket "[" s)
    else if char = ']' then .ok (singleCharToken .RBracket "]" s)
    else if char = Char.ofNat 123 then .ok (singleCharToken .LBrace "\x7b" s)
    else if char = Char.ofNat 125 then .ok (singleCharToken .RBrace "\x7d" s)
    else if char = '"' then parseString s
    else if char = ':' then .ok (parseKeyword s)
    else if isDigitCh char ||
        (char = '-' && (match s.peek 1 with | some c => isDigitCh c | none => false)) then
      parseNumber s
    else if char = '\'' then .ok (singleCharToken .Quote "quote" s)
    else if char = Char.ofNat 96 then .ok (singleCharToken .Quasiquote "quasiquote" s)
    else if char = '~' then
      if s.peek 1 = some '@' then
        let start := s.position
        let s1 := (s.advance).2
        let s2 := (s1.advance).2
        .ok (⟨.UnquoteSplicing, "unquote-splicing", start, s2.position⟩, s2)
      else .ok (singleCharToken .Unquote "unquote" s)
    else .ok (parseSymbolTok s)

/-! ## Error channel, environments (env.ts) -/

/-- Everything the evaluator can throw.  `evalError` is `EvaluationError`
(its diagnostic `context` record is dropped throughout), `envError` the
`EnvError` of env.ts, `jsError` the plain `Error` thrown by `lookup`.
`recurSignal` models the non-error `RecurSignal` control value.  `fuelOut`
and `jsUndefined` are model-only outcomes (see the module conventions). -/
inductive EvalErr where
  | evalError (msg : String)
  | envError (msg : String)
  | jsError (msg : String)
  | recurSignal (args : List CljValue)
  | fuelOut
  | jsUndefined
deriving Repr

/-- An environment record (`types.ts`, `Env`): bindings, optional outer
environment (as an arena index), optional namespace name, aliases. -/
structure Frame where
  bindings : List (String × CljValue)
  outer : Option Nat
  ns : Option String
  aliases : List (String × Nat)
deriving Repr

/-- The arena of allocated environments; a JS `Env` object reference is an
index into it. -/
abbrev Store := List Frame

/-- A result together with the store at the moment of return or throw
(JS mutations performed before a throw persist). -/
abbrev Res (α : Type) := Except EvalErr α × Store

/-- `Map.set` on a bindings map: overwrite in place or append. -/
def setBinding : List (String × CljValue) → String → CljValue → List (String × CljValue)
  | [], n, v => [(n, v)]
  | (k, w) :: rest, n, v =>
    if k = n then (k, v) :: rest else (k, w) :: setBinding rest n v

def getBinding : List (String × CljValue) → String → Option CljValue
  | [], _ => none
  | (k, w) :: rest, n => if k = n then some w else getBinding rest n

/-- `makeEnv` (env.ts): allocate a fresh empty environment. -/
def makeEnv (outer : Option Nat) (st : Store) : Nat × Store :=
  (st.length, st ++ [⟨[], outer, none, []⟩])

/-- `define` (env.ts): install a binding directly in the given environment. -/
def defineB (name : String) (value : CljValue) (envId : Nat) (st : Store) : Store :=
  match st.get? envId with
  | none => st
  | some fr => st.set envId { fr with bindings := setBinding fr.bindings name value }

/-- `lookup` (env.ts): walk the outer chain.  The fuel (bounded by the store
size: outer links always point to earlier frames) is a model artifact. -/
def lookupGo (st : Store) (name : String) : Nat → Nat → Except EvalErr CljValue
  | _, 0 => .error .fuelOut
  | envId, fuel + 1 =>
    match st.get? envId with
    | none => .error (.jsError ("Symbol " ++ name ++ " not found"))
    | some fr =>
      match getBinding fr.bindings name with
      | some v => .ok v
      | none =>
        match fr.outer with
        | some o => lookupGo st name o fuel
        | none => .error (.jsError ("Symbol " ++ name ++ " not found"))

def lookupV (name : String) (envId : Nat) (st : Store) : Except EvalErr CljValue :=
  lookupGo st name envId (st.length + 1)

/-- `extend` (env.ts): child environment binding each name to its value. -/
def extendEnv (params : List String) (args : List CljValue) (outer : Nat)
    (st : Store) : Res Nat :=
  if params.length ≠ args.length then
    (.error (.envError "Number of parameters and arguments must match"), st)
  else
    let bs := (params.zip args).foldl (fun acc p => setBinding acc p.1 p.2) []
    (.ok st.length, st ++ [⟨bs, some outer, none, []⟩])

/-- `getRootEnv` (env.ts): walk to the topmost environment. -/
def getRootEnvGo (st : Store) : Nat → Nat → Nat
  | envId, 0 => envId
  | envId, fuel + 1 =>
    match st.get? envId with
    | none => envId
    | some fr =>
      match fr.outer with
      | some o => getRootEnvGo st o fuel
      | none => envId

def getRootEnv (envId : Nat) (st : Store) : Nat :=
  getRootEnvGo st envId (st.length + 1)

/-- `getNamespaceEnv` (env.ts): nearest environment with a namespace set,
falling back to the root environment. -/
def getNamespaceEnvGo (st : Store) (orig : Nat) : Nat → Nat → Nat
  | _, 0 => getRootEnv orig st
  | envId, fuel + 1 =>
    match st.get? envId with
    | none => getRootEnv orig st
    | some fr =>
      if fr.ns.isSome then envId
      else
        match fr.outer with
        | some o => getNamespaceEnvGo st orig o fuel
        | none => getRootEnv orig st

def getNamespaceEnv (envId : Nat) (st : Store) : Nat :=
  getNamespaceEnvGo st envId envId (st.length + 1)

/-! ## assertions.ts: kind predicates -/

def isSymbolV : CljValue → Bool
  | .symbol _ => true
  | _ => false

def isListV : CljValue → Bool
  | .list _ => true
  | _ => false

def isVectorV : CljValue → Bool
  | .vector _ => true
  | _ => false

def isMapV : CljValue → Bool
  | .map _ => true
  | _ => false

def isKeywordV : CljValue → Bool
  | .keyword _ => true
  | _ => false

def isMacroV : CljValue → Bool
  | .macroV _ _ => true
  | _ => false

def isAFunctionV : CljValue → Bool
  | .function _ _ => true
  | .nativeFunction _ => true
  | _ => false

def isCollectionV (v : CljValue) : Bool :=
  isVectorV v || isMapV v || isListV v

/-- `specialFormKeywords` (evaluator.ts). -/
def specialFormNames : List String :=
  ["quote", "def", "if", "do", "let", "fn", "defmacro", "quasiquote", "ns",
   "loop", "recur"]

def isSpecialFormV : CljValue → Bool
  | .symbol n => specialFormNames.contains n
  | _ => false

/-- The `kind` tag string of a value, as the JS source spells it. -/
def kindName : CljValue → String
  | .number _ => "number"
  | .str _ => "string"
  | .boolean _ => "boolean"
  | .nil => "nil"
  | .keyword _ => "keyword"
  | .symbol _ => "symbol"
  | .list _ => "list"
  | .vector _ => "vector"
  | .map _ => "map"
  | .function _ _ => "function"
  | .nativeFunction _ => "native-function"
  | .macroV _ _ => "macro"

/-! ## printer.ts: `printString` -/

def escChar (c : Char) : String :=
  if c = '"' then "\\\""
  else if c = '\\' then "\\\\"
  else if c = '\n' then "\\n"
  else if c = '\r' then "\\r"
  else if c = '\t' then "\\t"
  else String.mk [c]

def escapeString (s : String) : String :=
  String.join (s.toList.map escChar)

/-- Parameter names of an arity as printed: `& rest` appended when variadic. -/
def printedParams (a : Arity) : List String :=
  match Arity.restParam a with
  | some r => Arity.params a ++ ["&", r]
  | none => Arity.params a

mutual

/-- `printString` (printer.ts).  The default branch of the source throws an
`EvaluationError` for kinds it does not handle (only `macro` reaches it), so
the translation returns `Except`. -/
def printStringE : CljValue → Except EvalErr String
  | .number v => .ok (toString v)
  | .str v => .ok ("\"" ++ escapeString v ++ "\"")
  | .boolean b => .ok (if b then "true" else "false")
  | .nil => .ok "nil"
  | .keyword n => .ok n
  | .symbol n => .ok n
  | .list vs => do
    let parts ← printListE vs
    return "(" ++ String.intercalate " " parts ++ ")"
  | .vector vs => do
    let parts ← printListE vs
    return "[" ++ String.intercalate " " parts ++ "]"
  | .map es => do
    let parts ← printEntriesE es
    return "\x7b" ++ String.intercalate " " parts ++ "\x7d"
  | .function arities _ =>
    if arities.length = 1 then
      match arities with
      | a :: _ => do
        let body ← printListE (Arity.body a)
        return "(fn [" ++ String.intercalate " " (printedParams a) ++ "] "
          ++ String.intercalate " " body ++ ")"
      | [] => .ok "(fn )"
    else do
      let clauses ← printClausesE arities
      return "(fn " ++ String.intercalate " " clauses ++ ")"
  | .nativeFunction name => .ok ("(native-fn " ++ name ++ ")")
  | .macroV _ _ => .error (.evalError "unhandled value type: macro")

def printListE : List CljValue → Except EvalErr (List String)
  | [] => .ok []
  | v :: vs => do
    let s ← printStringE v
    let rest ← printListE vs
    return s :: rest

def printEntriesE : List (CljValue × CljValue) → Except EvalErr (List String)
  | [] => .ok []
  | e :: es => do
    let k ← printStringE e.1
    let v ← printStringE e.2
    let rest ← printEntriesE es
    return (k ++ " " ++ v) :: rest

def printClausesE : List Arity → Except EvalErr (List String)
  | [] => .ok []
  | a :: rest => do
    let body ← printListE (Arity.body a)
    let others ← printClausesE rest
    return ("([" ++ String.intercalate " " (printedParams a) ++ "] "
      ++ String.intercalate " " body ++ ")") :: others

end

/-! ## core-env.ts: the native functions the claims are about -/

def isNumberV : CljValue → Bool
  | .number _ => true
  | _ => false

def numVal : CljValue → Int
  | .number v => v
  | _ => 0

/-- The `'-'` native (core-env.ts): at least one numeric argument; the rest
are folded off the first with subtraction. -/
def minusNative (args : List CljValue) : Except EvalErr CljValue :=
  match args with
  | [] => .error (.evalError "- expects at least one argument")
  | first :: rest =>
    if args.any (fun a => !isNumberV a) then
      .error (.evalError "- expects all arguments to be numbers")
    else
      .ok (.number (rest.foldl (fun acc a => acc - numVal a) (numVal first)))

def divGo : Int → List CljValue → Except EvalErr Int
  | acc, [] => .ok acc
  | acc, a :: rest =>
    if numVal a == 0 then .error (.evalError "division by zero")
    else divGo (acc / numVal a) rest

/-- The `'/'` native (core-env.ts).  (On the `Int` model of numbers the
quotient uses integer division; no theorem below depends on a quotient —
the claims it serves never reach the division.) -/
def divNative (args : List CljValue) : Except EvalErr CljValue :=
  match args with
  | [] => .error (.evalError "/ expects at least one argument")
  | first :: rest =>
    if args.any (fun a => !isNumberV a) then
      .error (.evalError "/ expects all arguments to be numbers")
    else
      match divGo (numVal first) rest with
      | .ok r => .ok (.number r)
      | .error e => .error e

/-- The pairing loop of the `hash-map` native: `for (i; i < len; i += 2)`. -/
def pairUp : List CljValue → List (CljValue × CljValue)
  | k :: v :: rest => (k, v) :: pairUp rest
  | _ => []

/-- The `hash-map` native (core-env.ts): every (key, value) pair is kept in
argument order; no key deduplication is performed. -/
def hashMapNative (args : List CljValue) : Except EvalErr CljValue :=
  match args with
  | [] => .ok (.map [])
  | _ =>
    if args.length % 2 ≠ 0 then
      .error (.evalError ("hash-map expects an even number of arguments, got "
        ++ toString args.length))
    else
      .ok (.map (pairUp args))

/-- The `count` native (core-env.ts).  The source guards on the kind and then
switches over the same kinds; the two collapse to one `match` here.  A missing
argument would crash reading `.kind` of `undefined`. -/
def countNative (args : List CljValue) : Except EvalErr CljValue :=
  match args.head? with
  | none => .error .jsUndefined
  | some c =>
    match c with
    | .list vs => .ok (.number (vs.length : Int))
    | .vector vs => .ok (.number (vs.length : Int))
    | .map es => .ok (.number (es.length : Int))
    | _ =>
      match printStringE c with
      | .ok s => .error (.evalError ("count expects a countable value, got " ++ s))
      | .error e => .error e

/-- JS `Array.splice(i, 1)`: negative indices count from the end. -/
def spliceOne (l : List CljValue) (i : Int) : List CljValue :=
  let pos : Nat :=
    if i < 0 then (max 0 ((l.length : Int) + i)).toNat else i.toNat
  l.take pos ++ l.drop (pos + 1)

/-- `newEntries.findIndex((entry) => isEqual(entry[0], key))`. -/
def findEntryIdx (entries : List (CljValue × CljValue)) (key : CljValue) : Option Nat :=
  entries.findIdx? (fun e => isEqual e.1 key)

def vecDissocGo : List CljValue → List CljValue → Except EvalErr (List CljValue)
  | cur, [] => .ok cur
  | cur, k :: ks =>
    match k with
    | .number i =>
      if (cur.length : Int) ≤ i then
        .error (.evalError ("dissoc index " ++ toString i
          ++ " is out of bounds for vector of length " ++ toString cur.length))
      else
        vecDissocGo (spliceOne cur i) ks
    | _ =>
      match printStringE k with
      | .ok s => .error (.evalError
          ("dissoc on vectors expects each key argument to be a index (number), got " ++ s))
      | .error e => .error e

/-- The map loop of the `dissoc` native: remove each key's first matching
entry from the accumulated entries; as soon as a key is not found, return
the original collection, discarding the removals made so far. -/
def mapDissocGo (orig : List (CljValue × CljValue)) :
    List (CljValue × CljValue) → List CljValue → CljValue
  | cur, [] => .map cur
  | cur, k :: ks =>
    match findEntryIdx cur k with
    | none => .map orig
    | some i => mapDissocGo orig (cur.take i ++ cur.drop (i + 1)) ks

/-- The `dissoc` native (core-env.ts). -/
def dissocNative (args : List CljValue) : Except EvalErr CljValue :=
  match args with
  | [] => .error (.evalError "dissoc expects a collection as first argument")
  | collection :: keys =>
    match collection with
    | .list _ => .error (.evalError "dissoc on lists is not supported, use vectors instead")
    | .vector vs =>
      if vs.length = 0 then .ok collection
      else
        match vecDissocGo vs keys with
        | .ok r => .ok (.vector r)
        | .error e => .error e
    | .map es =>
      if es.length = 0 then .ok collection
      else .ok (mapDissocGo es es keys)
    | _ =>
      match printStringE collection with
      | .ok s => .error (.evalError ("dissoc expects a collection, got " ++ s))
      | .error e => .error e

/-- Dispatch of `fn.fn(...args)` for the native functions translated above.
Natives outside this subset are a boundary of the model (no claim reaches
them); none of the translated natives touches the store. -/
def applyNativeF (name : String) (args : List CljValue) (st : Store) : Res CljValue :=
  let r : Except EvalErr CljValue :=
    if name = "-" then minusNative args
    else if name = "/" then divNative args
    else if name = "hash-map" then hashMapNative args
    else if name = "count" then countNative args
    else if name = "dissoc" then dissocNative args
    else .error (.evalError ("native function " ++ name ++ " is outside the modelled subset"))
  (r, st)

/-! ## evaluator.ts: fn parsing, arity resolution, parameter binding -/

def isAmp : CljValue → Bool
  | .symbol n => n = "&"
  | _ => false

/-- The `.name` of a value cast `as CljSymbol`; callers have already checked
every element is a symbol. -/
def symName : CljValue → String
  | .symbol n => n
  | _ => ""

/-- `parseParamVector` (evaluator.ts).  The position check is on JS numbers,
hence the `Int` comparison. -/
def parseParamVector (args : List CljValue) :
    Except EvalErr (List String × Option String) :=
  match args.findIdx? isAmp with
  | none => .ok (args.map symName, none)
  | some ampIdx =>
    if (args.filter isAmp).length > 1 then
      .error (.evalError "& can only appear once")
    else if (ampIdx : Int) ≠ (args.length : Int) - 2 then
      .error (.evalError "& must be second-to-last argument")
    else
      .ok ((args.take ampIdx).map symName,
        some (symName ((args.get? (ampIdx + 1)).getD .nil)))

def parseArityClauses : List CljValue → Except EvalErr (List Arity)
  | [] => .ok []
  | form :: rest =>
    match form with
    | .list [] =>
      .error (.evalError "Multi-arity clause must be a list starting with a parameter vector")
    | .list (paramVec :: body) =>
      match paramVec with
      | .vector pv =>
        if pv.any (fun a => !isSymbolV a) then
          .error (.evalError "Parameters must be symbols")
        else do
          let pr ← parseParamVector pv
          let others ← parseArityClauses rest
          .ok ((pr.1, pr.2, body) :: others)
      | _ =>
        .error (.evalError "First element of arity clause must be a parameter vector")
    | _ =>
      .error (.evalError "Multi-arity clause must be a list starting with a parameter vector")

/-- `parseArities` (evaluator.ts). -/
def parseArities (forms : List CljValue) : Except EvalErr (List Arity) :=
  match forms with
  | [] => .error (.evalError "fn/defmacro requires at least a parameter vector")
  | first :: _ =>
    match first with
    | .vector pv =>
      if pv.any (fun a => !isSymbolV a) then
        .error (.evalError "Parameters must be symbols")
      else do
        let pr ← parseParamVector pv
        .ok [(pr.1, pr.2, forms.drop 1)]
    | .list _ => do
      let arities ← parseArityClauses forms
      if (arities.filter (fun a => (Arity.restParam a).isSome)).length > 1 then
        .error (.evalError "At most one variadic arity is allowed per function")
      else
        .ok arities
    | _ => .error (.evalError "fn/defmacro expects a parameter vector or arity clauses")

def arityCountStr (a : Arity) : String :=
  if (Arity.restParam a).isSome then toString (Arity.params a).length ++ "+"
  else toString (Arity.params a).length

/-- `resolveArity` (evaluator.ts): prefer an exact fixed arity, then the
variadic arity, else fail listing the available arities. -/
def resolveArity (arities : List Arity) (argCount : Nat) : Except EvalErr Arity :=
  match arities.find? (fun a =>
      (Arity.restParam a).isNone && (Arity.params a).length == argCount) with
  | some a => .ok a
  | none =>
    match arities.find? (fun a =>
        (Arity.restParam a).isSome && Nat.ble (Arity.params a).length argCount) with
    | some a => .ok a
    | none =>
      .error (.evalError ("No matching arity for " ++ toString argCount
        ++ " arguments. Available arities: "
        ++ String.intercalate ", " (arities.map arityCountStr)))

/-- `bindParams` (evaluator.ts). -/
def bindParams (params : List String) (restParam : Option String)
    (args : List CljValue) (outerEnv : Nat) (st : Store) : Res Nat :=
  match restParam with
  | none =>
    if args.length ≠ params.length then
      (.error (.evalError ("Arguments length mismatch: fn accepts "
        ++ toString params.length ++ " arguments, but "
        ++ toString args.length ++ " were provided")), st)
    else
      extendEnv params (args.take params.length) outerEnv st
  | some rest =>
    if args.length < params.length then
      (.error (.evalError ("Arguments length mismatch: fn expects at least "
        ++ toString params.length ++ " arguments, but "
        ++ toString args.length ++ " were provided")), st)
    else
      let restArgs := args.drop params.length
      let restValue := if restArgs.length > 0 then CljValue.list restArgs else .nil
      extendEnv (params ++ [rest]) (args.take params.length ++ [restValue]) outerEnv st

/-! ## evaluator.ts: the evaluator -/

def lookupAlias : List (String × Nat) → String → Option Nat
  | [], _ => none
  | (k, v) :: rest, n => if k = n then some v else lookupAlias rest n

/-- `names.map((n) => lookup(n, initEnv))` in the `loop` special form. -/
def mapLookup : List String → Nat → Store → Except EvalErr (List CljValue)
  | [], _, _ => .ok []
  | n :: rest, env, st => do
    let v ← lookupV n env st
    let vs ← mapLookup rest env st
    .ok (v :: vs)

/-- Is this element list `(unquote x)` — exactly two elements whose head is
the symbol `unquote`?  Returns `x`. -/
def unquoteArg : List CljValue → Option CljValue
  | [u, x] =>
    match u with
    | .symbol s => if s = "unquote" then some x else none
    | _ => none
  | _ => none

/-- Is this element a list `(unquote-splicing x)`?  Returns `x`. -/
def spliceArg : CljValue → Option CljValue
  | .list [u, x] =>
    match u with
    | .symbol s => if s = "unquote-splicing" then some x else none
    | _ => none
  | _ => none

set_option maxHeartbeats 2000000 in
mutual

/-- `evaluate` (evaluator.ts).  Note the self-evaluating cases: `number`,
`string`, `keyword`, `nil`, `function` and `boolean`; `native-function` and
`macro` have no case and fall to the default branch. -/
def evaluateF : Nat → CljValue → Nat → Store → Res CljValue
  | 0, _, _, st => (.error .fuelOut, st)
  | n + 1, expr, env, st =>
    match expr with
    | .number _ => (.ok expr, st)
    | .str _ => (.ok expr, st)
    | .keyword _ => (.ok expr, st)
    | .nil => (.ok expr, st)
    | .function _ _ => (.ok expr, st)
    | .boolean _ => (.ok expr, st)
    | .symbol nm =>
      (match nm.toList.findIdx? (· = '/') with
       | some slashIdx =>
         if slashIdx > 0 && slashIdx + 1 < nm.length then
           let aliasName := String.mk (nm.toList.take slashIdx)
           let sym := String.mk (nm.toList.drop (slashIdx + 1))
           let nsEnv := getNamespaceEnv env st
           match st.get? nsEnv with
           | none => (.error .jsUndefined, st)
           | some fr =>
             match lookupAlias fr.aliases aliasName with
             | none => (.error (.evalError ("No such namespace alias: " ++ aliasName)), st)
             | some target => (lookupV sym target st, st)
         else (lookupV nm env st, st)
       | none => (lookupV nm env st, st))
    | .vector vs =>
      (match evalSeqF n vs env st with
       | (.ok rs, st1) => (.ok (.vector rs), st1)
       | (.error e, st1) => (.error e, st1))
    | .map es =>
      (match evalEntriesF n es env st with
       | (.ok rs, st1) => (.ok (.map rs), st1)
       | (.error e, st1) => (.error e, st1))
    | .list vs => evaluateListF n vs env st
    | _ => (.error (.evalError "Unexpected value"), st)
termination_by structural n _ _ _ => n

/-- `evaluateList` (evaluator.ts). -/
def evaluateListF : Nat → List CljValue → Nat → Store → Res CljValue
  | 0, _, _, st => (.error .fuelOut, st)
  | n + 1, vals, env, st =>
    match vals with
    | [] => (.error (.evalError "Unexpected empty list"), st)
    | first :: rest =>
      if isSpecialFormV first then
        evaluateSpecialFormF n (symName first) vals env st
      else
        match evaluateF n first env st with
        | (.error e, st1) => (.error e, st1)
        | (.ok evaledFirst, st1) =>
          match evaledFirst with
          | .macroV arities menv =>
            (match applyMacroF n arities menv rest st1 with
             | (.ok expanded, st2) => evaluateF n expanded env st2
             | (.error e, st2) => (.error e, st2))
          | _ =>
            if isAFunctionV evaledFirst then
              match evalSeqF n rest env st1 with
              | (.ok args, st2) => applyFunctionF n evaledFirst args st2
              | (.error e, st2) => (.error e, st2)
            else if isKeywordV evaledFirst then
              match vals.get? 1 with
              | none => (.error .jsUndefined, st1)
              | some a1 =>
                match evaluateF n a1 env st1 with
                | (.error e, st2) => (.error e, st2)
                | (.ok next, st2) =>
                  match (if vals.length > 2 then
                          match vals.get? 2 with
                          | some a2 => evaluateF n a2 env st2
                          | none => (.error .jsUndefined, st2)
                        else (.ok CljValue.nil, st2) : Res CljValue) with
                  | (.error e, st3) => (.error e, st3)
                  | (.ok defaultReturn, st3) =>
                    match next with
                    | .map entries =>
                      (match keyFind isEqual evaledFirst entries with
                       | some entry => (.ok entry.2, st3)
                       | none => (.ok defaultReturn, st3))
                    | _ => (.ok defaultReturn, st3)
            else
              match first with
              | .symbol sym =>
                (match lookupV sym env st1 with
                 | .error e => (.error e, st1)
                 | .ok fnSymbol =>
                   if !isAFunctionV fnSymbol then
                     (.error (.evalError (sym ++ " is not a function")), st1)
                   else
                     match evalSeqF n rest env st1 with
                     | (.ok args, st2) => applyFunctionF n fnSymbol args st2
                     | (.error e, st2) => (.error e, st2))
              | _ =>
                (.error (.evalError "First element of list must be a function or special form"), st1)
termination_by structural n _ _ _ => n

/-- `evaluateSpecialForm` (evaluator.ts). -/
def evaluateSpecialFormF : Nat → String → List CljValue → Nat → Store → Res CljValue
  | 0, _, _, _, st => (.error .fuelOut, st)
  | n + 1, symbol, vals, env, st =>
    if symbol = "quote" then
      match vals.get? 1 with
      | some x => (.ok x, st)
      | none => (.error .jsUndefined, st)
    else if symbol = "quasiquote" then
      match vals.get? 1 with
      | some x => evaluateQuasiquoteF n x env st
      | none => (.error .jsUndefined, st)
    else if symbol = "def" then
      match vals.get? 1 with
      | none => (.error .jsUndefined, st)
      | some name =>
        match name with
        | .symbol nm =>
          (match vals.get? 2 with
           | none => (.error .jsUndefined, st)
           | some e =>
             match evaluateF n e env st with
             | (.ok v, st1) => (.ok .nil, defineB nm v (getNamespaceEnv env st1) st1)
             | (.error err, st1) => (.error err, st1))
        | _ => (.error (.evalError "First element of list must be a symbol"), st)
    else if symbol = "ns" then
      (.ok .nil, st)
    else if symbol = "if" then
      match vals.get? 1 with
      | none => (.error .jsUndefined, st)
      | some c =>
        match evaluateF n c env st with
        | (.error e, st1) => (.error e, st1)
        | (.ok condition, st1) =>
          if !isFalsy condition then
            match vals.get? 2 with
            | none => (.error .jsUndefined, st1)
            | some t => evaluateF n t env st1
          else
            match vals.get? 3 with
            | none => (.ok .nil, st1)
            | some e => evaluateF n e env st1
    else if symbol = "do" then
      evaluateFormsF n (vals.drop 1) env st
    else if symbol = "let" then
      match vals.get? 1 with
      | none => (.error .jsUndefined, st)
      | some bindings =>
        match bindings with
        | .vector bs =>
          if bs.length % 2 ≠ 0 then
            (.error (.evalError "Bindings must be a balanced pair of keys and values"), st)
          else
            (match letBindF n bs env st with
             | (.ok localEnv, st1) => evaluateFormsF n (vals.drop 2) localEnv st1
             | (.error e, st1) => (.error e, st1))
        | _ => (.error (.evalError "Bindings must be a vector"), st)
    else if symbol = "fn" then
      match parseArities (vals.drop 1) with
      | .ok arities => (.ok (.function arities env), st)
      | .error e => (.error e, st)
    else if symbol = "defmacro" then
      match vals.get? 1 with
      | none => (.error .jsUndefined, st)
      | some name =>
        match name with
        | .symbol nm =>
          (match parseArities (vals.drop 2) with
           | .ok arities => (.ok .nil, defineB nm (.macroV arities env) (getRootEnv env st) st)
           | .error e => (.error e, st))
        | _ => (.error (.evalError "First element of defmacro must be a symbol"), st)
    else if symbol = "recur" then
      match evalSeqF n (vals.drop 1) env st with
      | (.ok args, st1) => (.error (.recurSignal args), st1)
      | (.error e, st1) => (.error e, st1)
    else if symbol = "loop" then
      match vals.get? 1 with
      | none => (.error .jsUndefined, st)
      | some loopBindings =>
        match loopBindings with
        | .vector bs =>
          if bs.length % 2 ≠ 0 then
            (.error (.evalError "loop bindings must be a balanced pair of keys and values"), st)
          else
            (match loopInitF n bs [] env st with
             | (.ok names_env, st1) =>
               (match mapLookup names_env.1 names_env.2 st1 with
                | .ok currentArgs =>
                  loopRunF n names_env.1 currentArgs (vals.drop 2) env st1
                | .error e => (.error e, st1))
             | (.error e, st1) => (.error e, st1))
        | _ => (.error (.evalError "loop bindings must be a vector"), st)
    else
      (.error (.evalError ("Unknown special form: " ++ symbol)), st)
termination_by structural n _ _ _ _ => n

/-- The binding walk of the `let` special form: each value is evaluated in
the environment accumulated so far, which is then extended. -/
def letBindF : Nat → List CljValue → Nat → Store → Res Nat
  | 0, _, _, st => (.error .fuelOut, st)
  | n + 1, bs, env, st =>
    match bs with
    | [] => (.ok env, st)
    | [_] => (.ok env, st)
    | k :: v :: rest =>
      if !isSymbolV k then
        (.error (.evalError "Keys must be symbols"), st)
      else
        match evaluateF n v env st with
        | (.error e, st1) => (.error e, st1)
        | (.ok value, st1) =>
          match extendEnv [symName k] [value] env st1 with
          | (.ok env2, st2) => letBindF n rest env2 st2
          | (.error e, st2) => (.error e, st2)
termination_by structural n _ _ _ => n

/-- The initial-binding walk of the `loop` special form (same rule as `let`,
additionally remembering the names). -/
def loopInitF : Nat → List CljValue → List String → Nat → Store → Res (List String × Nat)
  | 0, _, _, _, st => (.error .fuelOut, st)
  | n + 1, bs, acc, env, st =>
    match bs with
    | [] => (.ok (acc, env), st)
    | [_] => (.ok (acc, env), st)
    | k :: v :: rest =>
      if !isSymbolV k then
        (.error (.evalError "loop binding keys must be symbols"), st)
      else
        match evaluateF n v env st with
        | (.error e, st1) => (.error e, st1)
        | (.ok value, st1) =>
          match extendEnv [symName k] [value] env st1 with
          | (.ok env2, st2) => loopInitF n rest (acc ++ [symName k]) env2 st2
          | (.error e, st2) => (.error e, st2)
termination_by structural n _ _ _ _ => n

/-- The `while (true)` runner of the `loop` special form: extend the *outer*
environment with the loop names, run the body, and on a `RecurSignal` check
the argument count and iterate. -/
def loopRunF : Nat → List String → List CljValue → List CljValue → Nat → Store → Res CljValue
  | 0, _, _, _, _, st => (.error .fuelOut, st)
  | n + 1, names, currentArgs, body, outerEnv, st =>
    match extendEnv names currentArgs outerEnv st with
    | (.error e, st1) => (.error e, st1)
    | (.ok loopEnv, st1) =>
      match evaluateFormsF n body loopEnv st1 with
      | (.error (.recurSignal newArgs), st2) =>
        if newArgs.length ≠ names.length then
          (.error (.evalError ("recur expects " ++ toString names.length
            ++ " arguments but got " ++ toString newArgs.length)), st2)
        else
          loopRunF n names newArgs body outerEnv st2
      | r => r
termination_by structural n _ _ _ _ _ => n

/-- `applyFunction` (evaluator.ts): natives call their host closure; for
interpreted functions the arity is resolved **once**, then the call-apply
trampoline runs. -/
def applyFunctionF : Nat → CljValue → List CljValue → Store → Res CljValue
  | 0, _, _, st => (.error .fuelOut, st)
  | n + 1, fn, args, st =>
    match fn with
    | .nativeFunction name => applyNativeF name args st
    | .function arities fnEnv =>
      (match resolveArity arities args.length with
       | .ok arity => trampolineF n arity args fnEnv st
       | .error e => (.error e, st))
    | _ => (.error (.evalError (kindName fn ++ " is not a callable function")), st)
termination_by structural n _ _ _ => n

/-- The `while (true)` call-apply loop of `applyFunction`: bind the current
arguments against the (already chosen) arity, run the body, and on a
`RecurSignal` replace the arguments and iterate — with no arity
re-resolution. -/
def trampolineF : Nat → Arity → List CljValue → Nat → Store → Res CljValue
  | 0, _, _, _, st => (.error .fuelOut, st)
  | n + 1, arity, currentArgs, fnEnv, st =>
    match bindParams (Arity.params arity) (Arity.restParam arity) currentArgs fnEnv st with
    | (.error e, st1) => (.error e, st1)
    | (.ok localEnv, st1) =>
      match evaluateFormsF n (Arity.body arity) localEnv st1 with
      | (.error (.recurSignal newArgs), st2) => trampolineF n arity newArgs fnEnv st2
      | r => r
termination_by structural n _ _ _ _ => n

/-- `applyMacro` (evaluator.ts): bind the *unevaluated* argument forms and
evaluate the macro body in the macro's captured environment. -/
def applyMacroF : Nat → List Arity → Nat → List CljValue → Store → Res CljValue
  | 0, _, _, _, st => (.error .fuelOut, st)
  | n + 1, arities, menv, rawArgs, st =>
    match resolveArity arities rawArgs.length with
    | .error e => (.error e, st)
    | .ok arity =>
      match bindParams (Arity.params arity) (Arity.restParam arity) rawArgs menv st with
      | (.error e, st1) => (.error e, st1)
      | (.ok localEnv, st1) => evaluateFormsF n (Arity.body arity) localEnv st1
termination_by structural n _ _ _ _ => n

/-- Element-wise evaluation (`evaluateVector` and argument lists). -/
def evalSeqF : Nat → List CljValue → Nat → Store → Res (List CljValue)
  | 0, _, _, st => (.error .fuelOut, st)
  | n + 1, xs, env, st =>
    match xs with
    | [] => (.ok [], st)
    | x :: rest =>
      match evaluateF n x env st with
      | (.error e, st1) => (.error e, st1)
      | (.ok v, st1) =>
        match evalSeqF n rest env st1 with
        | (.ok vs, st2) => (.ok (v :: vs), st2)
        | (.error e, st2) => (.error e, st2)
termination_by structural n _ _ _ => n

/-- `evaluateMap` (evaluator.ts): evaluate each key then each value, keeping
every entry in order. -/
def evalEntriesF : Nat → List (CljValue × CljValue) → Nat → Store → Res (List (CljValue × CljValue))
  | 0, _, _, st => (.error .fuelOut, st)
  | n + 1, es, env, st =>
    match es with
    | [] => (.ok [], st)
    | e :: rest =>
      match evaluateF n e.1 env st with
      | (.error err, st1) => (.error err, st1)
      | (.ok k, st1) =>
        match evaluateF n e.2 env st1 with
        | (.error err, st2) => (.error err, st2)
        | (.ok v, st2) =>
          match evalEntriesF n rest env st2 with
          | (.ok vs, st3) => (.ok ((k, v) :: vs), st3)
          | (.error err, st3) => (.error err, st3)
termination_by structural n _ _ _ => n

/-- `evaluateQuasiquote` (evaluator.ts). -/
def evaluateQuasiquoteF : Nat → CljValue → Nat → Store → Res CljValue
  | 0, _, _, st => (.error .fuelOut, st)
  | n + 1, form, env, st =>
    match form with
    | .list elems =>
      (match unquoteArg elems with
       | some x => evaluateF n x env st
       | none =>
         match qqElementsF n elems env st with
         | (.ok rs, st1) => (.ok (.list rs), st1)
         | (.error e, st1) => (.error e, st1))
    | .vector elems =>
      (match qqElementsF n elems env st with
       | (.ok rs, st1) => (.ok (.vector rs), st1)
       | (.error e, st1) => (.error e, st1))
    | .map es =>
      (match qqEntriesF n es env st with
       | (.ok rs, st1) => (.ok (.map rs), st1)
       | (.error e, st1) => (.error e, st1))
    | .number _ => (.ok form, st)
    | .str _ => (.ok form, st)
    | .boolean _ => (.ok form, st)
    | .keyword _ => (.ok form, st)
    | .nil => (.ok form, st)
    | .symbol _ => (.ok form, st)
    | _ => (.error (.evalError ("Unexpected form: " ++ kindName form)), st)
termination_by structural n _ _ _ => n

/-- The element walk of `evaluateQuasiquote` over a list or vector:
unquote-splicing elements are evaluated and spliced, everything else is
recursed into. -/
def qqElementsF : Nat → List CljValue → Nat → Store → Res (List CljValue)
  | 0, _, _, st => (.error .fuelOut, st)
  | n + 1, elems, env, st =>
    match elems with
    | [] => (.ok [], st)
    | e :: rest =>
      match spliceArg e with
      | some x =>
        (match evaluateF n x env st with
         | (.error err, st1) => (.error err, st1)
         | (.ok toSplice, st1) =>
           match toSplice with
           | .list vs =>
             (match qqElementsF n rest env st1 with
              | (.ok rs, st2) => (.ok (vs ++ rs), st2)
              | (.error err, st2) => (.error err, st2))
           | .vector vs =>
             (match qqElementsF n rest env st1 with
              | (.ok rs, st2) => (.ok (vs ++ rs), st2)
              | (.error err, st2) => (.error err, st2))
           | _ =>
             (.error (.evalError "Unquote-splicing must evaluate to a list or vector"), st1))
      | none =>
        match evaluateQuasiquoteF n e env st with
        | (.error err, st1) => (.error err, st1)
        | (.ok v, st1) =>
          match qqElementsF n rest env st1 with
          | (.ok rs, st2) => (.ok (v :: rs), st2)
          | (.error err, st2) => (.error err, st2)
termination_by structural n _ _ _ => n

/-- The entry walk of `evaluateQuasiquote` over a map: keys and values are
recursed into independently. -/
def qqEntriesF : Nat → List (CljValue × CljValue) → Nat → Store → Res (List (CljValue × CljValue))
  | 0, _, _, st => (.error .fuelOut, st)
  | n + 1, es, env, st =>
    match es with
    | [] => (.ok [], st)
    | e :: rest =>
      match evaluateQuasiquoteF n e.1 env st with
      | (.error err, st1) => (.error err, st1)
      | (.ok k, st1) =>
        match evaluateQuasiquoteF n e.2 env st1 with
        | (.error err, st2) => (.error err, st2)
        | (.ok v, st2) =>
          match qqEntriesF n rest env st2 with
          | (.ok vs, st3) => (.ok ((k, v) :: vs), st3)
          | (.error err, st3) => (.error err, st3)
termination_by structural n _ _ _ => n

/-- `evaluateForms` (evaluator.ts): evaluate in order, return the last
result, `nil` when empty. -/
def evaluateFormsF : Nat → List CljValue → Nat → Store → Res CljValue
  | 0, _, _, st => (.error .fuelOut, st)
  | n + 1, forms, env, st =>
    match forms with
    | [] => (.ok .nil, st)
    | f :: rest =>
      match evaluateF n f env st with
      | (.error e, st1) => (.error e, st1)
      | (.ok v, st1) =>
        match rest with
        | [] => (.ok v, st1)
        | _ => evaluateFormsF n rest env st1
termination_by structural n _ _ _ => n

end

/-- `session.evaluateForms` (session.ts, `createSession`): run the forms and
convert an escaping `RecurSignal` into the dedicated `EvaluationError`. -/
def sessionEvaluateFormsF (fuel : Nat) (forms : List CljValue) (env : Nat)
    (st : Store) : Res CljValue :=
  match evaluateFormsF fuel forms env st with
  | (.error (.recurSignal _), st') =>
    (.error (.evalError "recur called outside of loop or fn"), st')
  | r => r

/-! ## Specification-side definitions used to state the claims -/

/-- Specification-side removal: remove each key's first matching entry in
turn, `none` as soon as a key has no match.  (Unlike the source's `dissoc`
loop this does not fall back to the original collection, so it can express
*when* that fallback fires.) -/
def removeKeys : List (CljValue × CljValue) → List CljValue →
    Option (List (CljValue × CljValue))
  | cur, [] => some cur
  | cur, k :: ks =>
    match findEntryIdx cur k with
    | none => none
    | some i => removeKeys (cur.take i ++ cur.drop (i + 1)) ks

/-- Claim-side map equality ("same set of keys, by recursive structural
equality, and equal values at each key"): every key of either map has a
structurally equal key in the other, and whenever a key resolves in both
maps the resolved values are structurally equal. -/
def sameKeySetEqualValues (m1 m2 : List (CljValue × CljValue)) : Prop :=
  (∀ e ∈ m1, ∃ e' ∈ m2, isEqual e'.1 e.1 = true) ∧
  (∀ e ∈ m2, ∃ e' ∈ m1, isEqual e'.1 e.1 = true) ∧
  (∀ k e1 e2, keyFind isEqual k m1 = some e1 → keyFind isEqual k m2 = some e2 →
    isEqual e1.2 e2.2 = true)

/-- Both maps resolve the key to a first matching entry and those entries'
values are structurally equal. -/
def hasFirstVals (m1 m2 : List (CljValue × CljValue)) (k : CljValue) : Prop :=
  ∃ e1 e2, keyFind isEqual k m1 = some e1 ∧ keyFind isEqual k m2 = some e2 ∧
    isEqual e1.2 e2.2 = true

/-- No candidate key structurally matches more than one entry of the map
(the duplicate-free discipline under which map equality is insertion-order
independent). -/
def uniquelyKeyed (l : List (CljValue × CljValue)) : Prop :=
  ∀ k, (l.countP (fun e => isEqual e.1 k)) ≤ 1

/-- Specification-side test "is this element list exactly `(unquote x)`". -/
def isUnquoteForm : List CljValue → Bool
  | [u, _] =>
    match u with
    | .symbol s => s = "unquote"
    | _ => false
  | _ => false

/-- Specification-side test "is this element a list `(unquote-splicing x)`". -/
def isSpliceForm : CljValue → Bool
  | .list [u, _] =>
    match u with
    | .symbol s => s = "unquote-splicing"
    | _ => false
  | _ => false

/-- The second element of a two-element form. -/
def secondOf : List CljValue → CljValue
  | [_, x] => x
  | _ => .nil

/-- The inner expression of a `(unquote-splicing x)` element. -/
def spliceExpr : CljValue → CljValue
  | .list l => secondOf l
  | _ => .nil

/-- The elements of a sequence value, when it is a list or a vector. -/
def seqElems : CljValue → Option (List CljValue)
  | .list vs => some vs
  | .vector vs => some vs
  | _ => none

mutual

/-- Has this form a shape the parser can produce — no closure kinds
(functions, native functions, macros) anywhere? -/
def parseableB : CljValue → Bool
  | .number _ => true
  | .str _ => true
  | .boolean _ => true
  | .nil => true
  | .keyword _ => true
  | .symbol _ => true
  | .list vs => parseableListB vs
  | .vector vs => parseableListB vs
  | .map es => parseableEntriesB es
  | .function _ _ => false
  | .nativeFunction _ => false
  | .macroV _ _ => false

def parseableListB : List CljValue → Bool
  | [] => true
  | v :: vs => parseableB v && parseableListB vs

def parseableEntriesB : List (CljValue × CljValue) → Bool
  | [] => true
  | e :: es => parseableB e.1 && parseableB e.2 && parseableEntriesB es

end

mutual

/-- The quasiquote walk as the specification states it (§4.5.5): a
two-element `(unquote x)` list evaluates `x`; lists and vectors walk their
elements, splicing the evaluated contents of `(unquote-splicing x)`
elements, preserving the list-vs-vector kind; maps recurse independently on
keys and values; the scalar variants are returned unchanged. -/
def quasiSpecF : Nat → CljValue → Nat → Store → Res CljValue
  | 0, _, _, st => (.error .fuelOut, st)
  | n + 1, form, env, st =>
    match form with
    | .list l =>
      if isUnquoteForm l then evaluateF n (secondOf l) env st
      else
        match qqSpecElemsF n l env st with
        | (.ok rs, st1) => (.ok (.list rs), st1)
        | (.error e, st1) => (.error e, st1)
    | .vector l =>
      (match qqSpecElemsF n l env st with
       | (.ok rs, st1) => (.ok (.vector rs), st1)
       | (.error e, st1) => (.error e, st1))
    | .map es =>
      (match qqSpecEntriesF n es env st with
       | (.ok rs, st1) => (.ok (.map rs), st1)
       | (.error e, st1) => (.error e, st1))
    | .number _ => (.ok form, st)
    | .str _ => (.ok form, st)
    | .boolean _ => (.ok form, st)
    | .keyword _ => (.ok form, st)
    | .nil => (.ok form, st)
    | .symbol _ => (.ok form, st)
    | _ => (.error (.evalError ("Unexpected form: " ++ kindName form)), st)
termination_by structural n _ _ _ => n

def qqSpecElemsF : Nat → List CljValue → Nat → Store → Res (List CljValue)
  | 0, _, _, st => (.error .fuelOut, st)
  | n + 1, elems, env, st =>
    match elems with
    | [] => (.ok [], st)
    | e :: rest =>
      if isSpliceForm e then
        match evaluateF n (spliceExpr e) env st with
        | (.error err, st1) => (.error err, st1)
        | (.ok toSplice, st1) =>
          match seqElems toSplice with
          | none =>
            (.error (.evalError "Unquote-splicing must evaluate to a list or vector"), st1)
          | some vs =>
            match qqSpecElemsF n rest env st1 with
            | (.ok rs, st2) => (.ok (vs ++ rs), st2)
            | (.error err, st2) => (.error err, st2)
      else
        match quasiSpecF n e env st with
        | (.error err, st1) => (.error err, st1)
        | (.ok v, st1) =>
          match qqSpecElemsF n rest env st1 with
          | (.ok rs, st2) => (.ok (v :: rs), st2)
          | (.error err, st2) => (.error err, st2)
termination_by structural n _ _ _ => n

def qqSpecEntriesF : Nat → List (CljValue × CljValue) → Nat → Store → Res (List (CljValue × CljValue))
  | 0, _, _, st => (.error .fuelOut, st)
  | n + 1, es, env, st =>
    match es with
    | [] => (.ok [], st)
    | e :: rest =>
      match quasiSpecF n e.1 env st with
      | (.error err, st1) => (.error err, st1)
      | (.ok k, st1) =>
        match quasiSpecF n e.2 env st1 with
        | (.error err, st2) => (.error err, st2)
        | (.ok v, st2) =>
          match qqSpecEntriesF n rest env st2 with
          | (.ok vs, st3) => (.ok ((k, v) :: vs), st3)
          | (.error err, st3) => (.error err, st3)
termination_by structural n _ _ _ => n

end

/-! ## Theorems -/

/-- Claim C8: applying the `-` native to a single number returns that number
itself (not its negation), and applying the `/` native to a single number
returns that number itself (not its reciprocal): with one argument both
reduce over an empty divisor list and act as the identity. -/
theorem minus_div_single_argument_identity :
    ∀ x : Int, minusNative [.number x] = .ok (.number x) ∧
      divNative [.number x] = .ok (.number x) :=
  fun _ => ⟨rfl, rfl⟩

/-- Claim C3 (counterexample): contrary to the claim, `evaluate` raises an
`EvaluationError` ("Unexpected value") on a `NativeFunction` value and on a
`Macro` value — those two kinds have no self-evaluation case and fall to the
default branch. -/
theorem evaluate_native_macro_counterexample :
    evaluateF 1 (.nativeFunction "+") 0 [] =
      (.error (.evalError "Unexpected value"), []) ∧
    evaluateF 1 (.macroV [(["x"], none, [.symbol "x"])] 0) 0 [] =
      (.error (.evalError "Unexpected value"), []) :=
  ⟨rfl, rfl⟩

/-- Claim C3 (amended): `evaluate` returns Number, String, Boolean, Nil,
Keyword and Function expressions unchanged, for every environment and store;
a NativeFunction or Macro expression instead falls to the default branch and
raises `EvaluationError("Unexpected value")`. -/
theorem evaluate_self_eval_amended :
    ∀ (n env : Nat) (st : Store),
      (∀ v : Int, evaluateF (n + 1) (.number v) env st = (.ok (.number v), st)) ∧
      (∀ v : String, evaluateF (n + 1) (.str v) env st = (.ok (.str v), st)) ∧
      (∀ b : Bool, evaluateF (n + 1) (.boolean b) env st = (.ok (.boolean b), st)) ∧
      evaluateF (n + 1) .nil env st = (.ok .nil, st) ∧
      (∀ k : String, evaluateF (n + 1) (.keyword k) env st = (.ok (.keyword k), st)) ∧
      (∀ ars e, evaluateF (n + 1) (.function ars e) env st = (.ok (.function ars e), st)) ∧
      (∀ s : String, evaluateF (n + 1) (.nativeFunction s) env st =
        (.error (.evalError "Unexpected value"), st)) ∧
      (∀ ars e, evaluateF (n + 1) (.macroV ars e) env st =
        (.error (.evalError "Unexpected value"), st)) :=
  fun _ _ _ =>
    ⟨fun _ => rfl, fun _ => rfl, fun _ => rfl, rfl, fun _ => rfl,
     fun _ _ => rfl, fun _ => rfl, fun _ _ => rfl⟩

/-- Claim C7: a `RecurSignal` never escapes `session.evaluateForms`: whenever
the underlying `evaluateForms` throws a `RecurSignal`, the session surfaces
`EvaluationError("recur called outside of loop or fn")` instead, and the
session's result is never a raw `RecurSignal`. -/
theorem recur_never_escapes_session :
    ∀ (fuel : Nat) (forms : List CljValue) (env : Nat) (st : Store),
      (∀ args st', evaluateFormsF fuel forms env st = (.error (.recurSignal args), st') →
        sessionEvaluateFormsF fuel forms env st =
          (.error (.evalError "recur called outside of loop or fn"), st')) ∧
      (∀ args st', sessionEvaluateFormsF fuel forms env st ≠
        (.error (.recurSignal args), st')) := by
  intro fuel forms env st
  constructor
  · intro args st' h
    simp [sessionEvaluateFormsF, h]
  · intro args st'
    unfold sessionEvaluateFormsF
    rcases h : evaluateFormsF fuel forms env st with ⟨r, s⟩
    rcases r with e | v
    · cases e <;> simp
    · simp

/-- Claim C7 witness: a top-level `(recur 1)` surfaces as the dedicated
`EvaluationError` through the session wrapper. -/
theorem recur_never_escapes_session_witness :
    sessionEvaluateFormsF 20 [.list [.symbol "recur", .number 1]] 0
        [⟨[], none, some "user", []⟩] =
      (.error (.evalError "recur called outside of loop or fn"),
        [⟨[], none, some "user", []⟩]) :=
  (recur_never_escapes_session 20 [.list [.symbol "recur", .number 1]] 0
    [⟨[], none, some "user", []⟩]).1 [.number 1] _ rfl

theorem pairUp_length :
    ∀ args : List CljValue, args.length % 2 = 0 →
      (pairUp args).length = args.length / 2
  | [], _ => by simp [pairUp]
  | [_], h => by simp at h
  | _ :: _ :: rest, h => by
    have ih := pairUp_length rest (by simp at h; omega)
    simp only [pairUp, List.length_cons, ih]
    omega

theorem evalEntriesF_length :
    ∀ (n : Nat) (es : List (CljValue × CljValue)) (env : Nat) (st : Store)
      (r : List (CljValue × CljValue)) (st' : Store),
      evalEntriesF n es env st = (.ok r, st') → r.length = es.length := by
  intro n
  induction n with
  | zero =>
    intro es env st r st' h
    simp [evalEntriesF] at h
  | succ n ih =>
    intro es env st r st' h
    cases es with
    | nil =>
      simp [evalEntriesF] at h
      simp [h.1]
    | cons e rest =>
      simp only [evalEntriesF] at h
      rcases h1 : evaluateF n e.1 env st with ⟨r1, s1⟩
      rw [h1] at h
      rcases r1 with e1 | k
      · simp at h
      · dsimp only at h
        rcases h2 : evaluateF n e.2 env s1 with ⟨r2, s2⟩
        rw [h2] at h
        rcases r2 with e2 | v
        · simp at h
        · dsimp only at h
          rcases h3 : evalEntriesF n rest env s2 with ⟨r3, s3⟩
          rw [h3] at h
          rcases r3 with e3 | vs
          · simp at h
          · simp at h
            rw [← h.1]
            simp [ih rest env s2 vs s3 h3]

/-- Claim C10: map construction performs no key deduplication: the `count`
native returns the number of physically stored entries of a map; the
`hash-map` native pairs its arguments in order, keeping every (key, value)
pair, so a duplicate-key map keeps both entries and `pairUp` halves the
argument count without merging; and evaluating a map literal
(`evaluateMap`'s entry walk) preserves the number of entries. -/
theorem map_construction_no_dedup :
    (∀ entries : List (CljValue × CljValue),
      countNative [.map entries] = .ok (.number (entries.length : Int))) ∧
    (∀ args : List CljValue, args ≠ [] → args.length % 2 = 0 →
      hashMapNative args = .ok (.map (pairUp args))) ∧
    (∀ args : List CljValue, args.length % 2 = 0 →
      (pairUp args).length = args.length / 2) ∧
    (∀ (n : Nat) (es : List (CljValue × CljValue)) (env : Nat) (st : Store) r st',
      evalEntriesF n es env st = (.ok r, st') → r.length = es.length) := by
  refine ⟨fun _ => rfl, ?_, pairUp_length, evalEntriesF_length⟩
  intro args hne heven
  cases args with
  | nil => exact absurd rfl hne
  | cons a rest =>
    simp only [hashMapNative]
    rw [if_neg (by simpa using heven)]

/-- Claim C10 witness: the duplicate-key map `{:a 1 :a 2}` built by
`hash-map` keeps both entries and counts 2. -/
theorem map_construction_no_dedup_witness :
    hashMapNative [.keyword ":a", .number 1, .keyword ":a", .number 2] =
      .ok (.map [(.keyword ":a", .number 1), (.keyword ":a", .number 2)]) ∧
    countNative [.map [(.keyword ":a", .number 1), (.keyword ":a", .number 2)]] =
      .ok (.number 2) := by
  constructor
  · have h := map_construction_no_dedup.2.1
      [.keyword ":a", .number 1, .keyword ":a", .number 2]
      (List.cons_ne_nil _ _) (by decide)
    simpa [pairUp] using h
  · exact map_construction_no_dedup.1
      [(.keyword ":a", .number 1), (.keyword ":a", .number 2)]

theorem mapDissocGo_all :
    ∀ (args : List CljValue) (orig cur cur' : List (CljValue × CljValue)),
      removeKeys cur args = some cur' → mapDissocGo orig cur args = .map cur' := by
  intro args
  induction args with
  | nil =>
    intro orig cur cur' h
    simp [removeKeys] at h
    simp [mapDissocGo, h]
  | cons a rest ih =>
    intro orig cur cur' h
    simp only [removeKeys] at h
    rcases hf : findEntryIdx cur a with _ | i
    · rw [hf] at h; simp at h
    · rw [hf] at h
      simp only [mapDissocGo, hf]
      exact ih orig _ cur' h

theorem mapDissocGo_miss :
    ∀ (args1 : List CljValue) (orig cur cur' : List (CljValue × CljValue))
      (k : CljValue) (args2 : List CljValue),
      removeKeys cur args1 = some cur' → findEntryIdx cur' k = none →
      mapDissocGo orig cur (args1 ++ k :: args2) = .map orig := by
  intro args1
  induction args1 with
  | nil =>
    intro orig cur cur' k args2 h1 h2
    simp [removeKeys] at h1
    subst h1
    simp [mapDissocGo, h2]
  | cons a rest ih =>
    intro orig cur cur' k args2 h1 h2
    simp only [removeKeys] at h1
    rcases hf : findEntryIdx cur a with _ | i
    · rw [hf] at h1; simp at h1
    · rw [hf] at h1
      simp only [List.cons_append, mapDissocGo, hf]
      exact ih orig _ cur' k args2 h1 h2

/-- Claim C9: on a non-empty map, `dissoc` is all-or-nothing: if, walking the
given keys left to right over the entries accumulated so far, some key has
no structurally equal entry, the native returns the *original* map
unchanged, discarding the removals already performed; and it returns the
reduced map exactly when every key in the sequence is found. -/
theorem dissoc_allornothing :
    (∀ (entries : List (CljValue × CljValue)) (args1 : List CljValue)
      (k : CljValue) (args2 : List CljValue) (cur : List (CljValue × CljValue)),
      entries ≠ [] → removeKeys entries args1 = some cur →
      findEntryIdx cur k = none →
      dissocNative (.map entries :: (args1 ++ k :: args2)) = .ok (.map entries)) ∧
    (∀ (entries : List (CljValue × CljValue)) (args : List CljValue)
      (cur : List (CljValue × CljValue)),
      entries ≠ [] → removeKeys entries args = some cur →
      dissocNative (.map entries :: args) = .ok (.map cur)) := by
  constructor
  · intro entries args1 k args2 cur hne h1 h2
    have hlen : entries.length ≠ 0 := by simpa using hne
    simp [dissocNative, hlen, mapDissocGo_miss args1 entries entries cur k args2 h1 h2]
  · intro entries args cur hne h1
    have hlen : entries.length ≠ 0 := by simpa using hne
    simp [dissocNative, hlen, mapDissocGo_all args entries entries cur h1]

/-- Claim C9 witness: `(dissoc {:a 1 :b 2} :a :c)` returns the original map
(the removal of `:a` is discarded because `:c` is missing), while
`(dissoc {:a 1 :b 2} :a)` returns the reduced map. -/
theorem dissoc_allornothing_witness :
    dissocNative [.map [(.keyword ":a", .number 1), (.keyword ":b", .number 2)],
        .keyword ":a", .keyword ":c"] =
      .ok (.map [(.keyword ":a", .number 1), (.keyword ":b", .number 2)]) ∧
    dissocNative [.map [(.keyword ":a", .number 1), (.keyword ":b", .number 2)],
        .keyword ":a"] =
      .ok (.map [(.keyword ":b", .number 2)]) :=
  ⟨dissoc_allornothing.1 [(.keyword ":a", .number 1), (.keyword ":b", .number 2)]
      [.keyword ":a"] (.keyword ":c") [] [(.keyword ":b", .number 2)]
      (List.cons_ne_nil _ _) rfl rfl,
   dissoc_allornothing.2 [(.keyword ":a", .number 1), (.keyword ":b", .number 2)]
      [.keyword ":a"] [(.keyword ":b", .number 2)] (List.cons_ne_nil _ _) rfl⟩

/-- Claim C1 (counterexample): for the two-arity function
`(fn ([x] (recur 1 2)) ([x y] x))` applied to one argument, a matching arity
for the recur's two arguments exists (`resolveArity` finds `[x y]`, whose
trampoline on `[1, 2]` would return `1`), yet `applyFunction` does *not*
continue in that other arity: the trampoline re-binds the recur arguments
against the originally resolved one-parameter arity and fails with the
`bindParams` length mismatch, so the claimed arity re-resolution does not
happen. -/
theorem recur_cross_arity_counterexample :
    resolveArity [(["x"], none, [.list [.symbol "recur", .number 1, .number 2]]),
        (["x", "y"], none, [.symbol "x"])] 2 =
      .ok ((["x", "y"], none, [.symbol "x"])) ∧
    (trampolineF 20 (["x", "y"], none, [.symbol "x"]) [.number 1, .number 2] 0
        [⟨[], none, some "user", []⟩]).1 = .ok (.number 1) ∧
    applyFunctionF 21
        (.function [(["x"], none, [.list [.symbol "recur", .number 1, .number 2]]),
          (["x", "y"], none, [.symbol "x"])] 0)
        [.number 0] [⟨[], none, some "user", []⟩] =
      (.error (.evalError
          "Arguments length mismatch: fn accepts 1 arguments, but 2 were provided"),
        [⟨[], none, some "user", []⟩, ⟨[("x", .number 0)], some 0, none, []⟩]) :=
  ⟨rfl, rfl, rfl⟩

/-- Claim C1 (amended): `applyFunction` resolves the arity once, for the
*initial* argument count.  When a `RecurSignal(new_args)` propagates out of
the body, the trampoline sets the current arguments to `new_args` and
re-binds them against that same arity without re-resolving; so when the
selected arity is non-variadic and the recur argument count differs from its
parameter count, the call fails with the `bindParams` "Arguments length
mismatch" error — even if another arity of the same function matches the new
count. -/
theorem recur_rebinds_resolved_arity :
    ∀ (j : Nat) (arities : List Arity) (A : Arity) (args newArgs : List CljValue)
      (envId l : Nat) (st st1 st2 : Store),
      resolveArity arities args.length = .ok A →
      Arity.restParam A = none →
      bindParams (Arity.params A) (Arity.restParam A) args envId st = (.ok l, st1) →
      evaluateFormsF (j + 1) (Arity.body A) l st1 = (.error (.recurSignal newArgs), st2) →
      newArgs.length ≠ (Arity.params A).length →
      applyFunctionF (j + 3) (.function arities envId) args st =
        (.error (.evalError ("Arguments length mismatch: fn accepts "
          ++ toString (Arity.params A).length ++ " arguments, but "
          ++ toString newArgs.length ++ " were provided")), st2) := by
  intro j arities A args newArgs envId l st st1 st2 hres hrest hbind heval hlen
  show applyFunctionF (j + 2 + 1) _ _ _ = _
  simp only [applyFunctionF, hres]
  show trampolineF (j + 1 + 1) _ _ _ _ = _
  simp only [trampolineF, hbind, heval]
  show trampolineF (j + 1) _ _ _ _ = _
  cases j with
  | zero =>
    simp only [trampolineF, hrest, bindParams]
    rw [if_pos hlen]
  | succ j' =>
    show trampolineF (j' + 1 + 1) _ _ _ _ = _
    simp only [trampolineF, hrest, bindParams]
    rw [if_pos hlen]

/-- Claim C1 (amended) witness: the amended theorem applied to the concrete
two-arity function of the counterexample. -/
theorem recur_rebinds_resolved_arity_witness :
    applyFunctionF 21
        (.function [(["x"], none, [.list [.symbol "recur", .number 1, .number 2]]),
          (["x", "y"], none, [.symbol "x"])] 0)
        [.number 0] [⟨[], none, some "user", []⟩] =
      (.error (.evalError
          "Arguments length mismatch: fn accepts 1 arguments, but 2 were provided"),
        [⟨[], none, some "user", []⟩, ⟨[("x", .number 0)], some 0, none, []⟩]) :=
  recur_rebinds_resolved_arity 18
    [(["x"], none, [.list [.symbol "recur", .number 1, .number 2]]),
      (["x", "y"], none, [.symbol "x"])]
    (["x"], none, [.list [.symbol "recur", .number 1, .number 2]])
    [.number 0] [.number 1, .number 2] 0 1
    [⟨[], none, some "user", []⟩]
    [⟨[], none, some "user", []⟩, ⟨[("x", .number 0)], some 0, none, []⟩]
    [⟨[], none, some "user", []⟩, ⟨[("x", .number 0)], some 0, none, []⟩]
    rfl rfl rfl rfl (by decide)

/-- Claim C2: wherever a token starts (i.e. wherever `parseNextToken` is
invoked) on the two-character sequence `~@`, the tokenizer emits a single
`UnquoteSplicing` token spanning exactly those two characters; analogously a
backtick yields a one-character `Quasiquote` token and a lone `~` a
one-character `Unquote` token — none of them is absorbed into a `Symbol`
token. -/
theorem tilde_at_tokenizes_unquote_splicing :
    ∀ s : Scanner,
      (s.peek 0 = some '~' → s.peek 1 = some '@' →
        parseNextToken s = .ok
          (⟨.UnquoteSplicing, "unquote-splicing", ⟨s.line, s.col, s.offset⟩,
            ⟨s.line, s.col + 2, s.offset + 2⟩⟩,
           { s with col := s.col + 2, offset := s.offset + 2 })) ∧
      (s.peek 0 = some (Char.ofNat 96) →
        parseNextToken s = .ok
          (⟨.Quasiquote, "quasiquote", ⟨s.line, s.col, s.offset⟩,
            ⟨s.line, s.col + 1, s.offset + 1⟩⟩,
           { s with col := s.col + 1, offset := s.offset + 1 })) ∧
      (s.peek 0 = some '~' → s.peek 1 ≠ some '@' →
        parseNextToken s = .ok
          (⟨.Unquote, "unquote", ⟨s.line, s.col, s.offset⟩,
            ⟨s.line, s.col + 1, s.offset + 1⟩⟩,
           { s with col := s.col + 1, offset := s.offset + 1 })) := by
  intro s
  refine ⟨?_, ?_, ?_⟩
  · intro h0 h1
    have h0' : s.input[s.offset]? = some '~' := by
      simpa [Scanner.peek, List.get?_eq_getElem?] using h0
    have h1' : s.input[s.offset + 1]? = some '@' := by
      simpa [Scanner.peek, List.get?_eq_getElem?] using h1
    simp [parseNextToken, h0, h1, h0', h1', Scanner.advance, Scanner.position,
      isWhitespaceCh, isCommentCh, isDigitCh, Char.isDigit]
  · intro h0
    have h0' : s.input[s.offset]? = some (Char.ofNat 96) := by
      simpa [Scanner.peek, List.get?_eq_getElem?] using h0
    simp [parseNextToken, h0, h0', singleCharToken, Scanner.advance,
      Scanner.position, isWhitespaceCh, isCommentCh, isDigitCh, Char.isDigit]
  · intro h0 h1
    have h0' : s.input[s.offset]? = some '~' := by
      simpa [Scanner.peek, List.get?_eq_getElem?] using h0
    simp [parseNextToken, h0, h1, h0', singleCharToken, Scanner.advance,
      Scanner.position, isWhitespaceCh, isCommentCh, isDigitCh, Char.isDigit]

/-- Claim C2 witness: the three reader-macro tokenizations at concrete
inputs: `~@foo`, a backtick before `x`, and `~x`. -/
theorem tilde_at_tokenizes_unquote_splicing_witness :
    parseNextToken ⟨"~@foo".toList, 0, 0, 0⟩ = .ok
      (⟨.UnquoteSplicing, "unquote-splicing", ⟨0, 0, 0⟩, ⟨0, 2, 2⟩⟩,
       ⟨"~@foo".toList, 0, 2, 2⟩) ∧
    parseNextToken ⟨[Char.ofNat 96, 'x'], 0, 0, 0⟩ = .ok
      (⟨.Quasiquote, "quasiquote", ⟨0, 0, 0⟩, ⟨0, 1, 1⟩⟩,
       ⟨[Char.ofNat 96, 'x'], 0, 1, 1⟩) ∧
    parseNextToken ⟨"~x".toList, 0, 0, 0⟩ = .ok
      (⟨.Unquote, "unquote", ⟨0, 0, 0⟩, ⟨0, 1, 1⟩⟩,
       ⟨"~x".toList, 0, 1, 1⟩) :=
  ⟨(tilde_at_tokenizes_unquote_splicing ⟨"~@foo".toList, 0, 0, 0⟩).1 rfl rfl,
   (tilde_at_tokenizes_unquote_splicing ⟨[Char.ofNat 96, 'x'], 0, 0, 0⟩).2.1 rfl,
   (tilde_at_tokenizes_unquote_splicing ⟨"~x".toList, 0, 0, 0⟩).2.2 rfl (by decide)⟩

theorem unquoteArg_spec : ∀ l : List CljValue,
    unquoteArg l = if isUnquoteForm l then some (secondOf l) else none := by
  intro l
  match l with
  | [] => rfl
  | [a] => rfl
  | [u, x] => cases u <;> simp [unquoteArg, isUnquoteForm, secondOf]
  | a :: b :: c :: t => rfl

theorem spliceArg_spec : ∀ e : CljValue,
    spliceArg e = if isSpliceForm e then some (spliceExpr e) else none := by
  intro e
  match e with
  | .list [] => rfl
  | .list [a] => rfl
  | .list [u, x] => cases u <;> simp [spliceArg, isSpliceForm, spliceExpr, secondOf]
  | .list (a :: b :: c :: t) => rfl
  | .number _ | .str _ | .boolean _ | .nil | .keyword _ | .symbol _
  | .vector _ | .map _ | .function _ _ | .nativeFunction _ | .macroV _ _ => rfl

/-- Claim C6: `evaluateQuasiquote` performs exactly the walk the spec
describes (formalized as `quasiSpecF`): a two-element `(unquote x)` list
evaluates `x`; inside a list or vector every `(unquote-splicing x)` element
has `x` evaluated, the result is required to be a list or vector (else an
`EvaluationError`) and is spliced in place; other elements are recursed
into; the list-vs-vector kind of the surrounding collection is preserved;
map keys and values are recursed independently; scalar atoms are returned
unchanged.  Stated for every parser-producible form (no closure kinds), at
every fuel, environment and store, and componentwise for the element and
entry walks. -/
theorem quasiquote_matches_spec_walk :
    ∀ n : Nat,
      (∀ (form : CljValue) (env : Nat) (st : Store), parseableB form = true →
        evaluateQuasiquoteF n form env st = quasiSpecF n form env st) ∧
      (∀ (elems : List CljValue) (env : Nat) (st : Store), parseableListB elems = true →
        qqElementsF n elems env st = qqSpecElemsF n elems env st) ∧
      (∀ (es : List (CljValue × CljValue)) (env : Nat) (st : Store),
        parseableEntriesB es = true →
        qqEntriesF n es env st = qqSpecEntriesF n es env st) := by
  intro n
  induction n with
  | zero => exact ⟨fun _ _ _ _ => rfl, fun _ _ _ _ => rfl, fun _ _ _ _ => rfl⟩
  | succ n ih =>
    obtain ⟨ihP, ihQ, ihR⟩ := ih
    refine ⟨?_, ?_, ?_⟩
    · intro form env st hp
      cases form with
      | list l =>
        have hl : parseableListB l = true := by simpa [parseableB] using hp
        simp only [evaluateQuasiquoteF, quasiSpecF, unquoteArg_spec]
        cases hq : isUnquoteForm l with
        | true => simp [hq]
        | false => simp [hq, ihQ l env st hl]
      | vector l =>
        have hl : parseableListB l = true := by simpa [parseableB] using hp
        simp only [evaluateQuasiquoteF, quasiSpecF, ihQ l env st hl]
      | map es =>
        have hl : parseableEntriesB es = true := by simpa [parseableB] using hp
        simp only [evaluateQuasiquoteF, quasiSpecF, ihR es env st hl]
      | number v => rfl
      | str v => rfl
      | boolean v => rfl
      | keyword v => rfl
      | nil => rfl
      | symbol v => rfl
      | function a e => simp [parseableB] at hp
      | nativeFunction a => simp [parseableB] at hp
      | macroV a e => simp [parseableB] at hp
    · intro elems env st hp
      cases elems with
      | nil => rfl
      | cons e rest =>
        have hpe : parseableB e = true ∧ parseableListB rest = true := by
          simpa [parseableListB, Bool.and_eq_true] using hp
        simp only [qqElementsF, qqSpecElemsF, spliceArg_spec]
        cases hs : isSpliceForm e with
        | true =>
          simp only [hs, if_true]
          rcases h1 : evaluateF n (spliceExpr e) env st with ⟨r1, st1⟩
          rcases r1 with err | v
          · rfl
          · cases v <;> simp [seqElems, ihQ rest env st1 hpe.2]
        | false =>
          simp only [hs, if_false, Bool.false_eq_true]
          rw [ihP e env st hpe.1]
          rcases h1 : quasiSpecF n e env st with ⟨r1, st1⟩
          rcases r1 with err | v
          · rfl
          · simp only []
            rw [ihQ rest env st1 hpe.2]
    · intro es env st hp
      cases es with
      | nil => rfl
      | cons e rest =>
        have hpe : parseableB e.1 = true ∧ parseableB e.2 = true ∧
            parseableEntriesB rest = true := by
          simpa [parseableEntriesB, Bool.and_eq_true, and_assoc] using hp
        simp only [qqEntriesF, qqSpecEntriesF]
        rw [ihP e.1 env st hpe.1]
        rcases h1 : quasiSpecF n e.1 env st with ⟨r1, st1⟩
        rcases r1 with err | k
        · rfl
        · simp only []
          rw [ihP e.2 env st1 hpe.2.1]
          rcases h2 : quasiSpecF n e.2 env st1 with ⟨r2, st2⟩
          rcases r2 with err | v
          · rfl
          · simp only []
            rw [ihR rest env st2 hpe.2.2]

/-- Claim C6 witness: the walk equivalence applied to the concrete form
`(a (unquote-splicing xs) b)` with `xs` bound to `[1 2]`. -/
theorem quasiquote_matches_spec_walk_witness :
    evaluateQuasiquoteF 20
        (.list [.symbol "a", .list [.symbol "unquote-splicing", .symbol "xs"],
          .symbol "b"]) 0
        [⟨[("xs", .vector [.number 1, .number 2])], none, some "user", []⟩] =
      quasiSpecF 20
        (.list [.symbol "a", .list [.symbol "unquote-splicing", .symbol "xs"],
          .symbol "b"]) 0
        [⟨[("xs", .vector [.number 1, .number 2])], none, some "user", []⟩] :=
  (quasiquote_matches_spec_walk 20).1
    (.list [.symbol "a", .list [.symbol "unquote-splicing", .symbol "xs"],
      .symbol "b"]) 0
    [⟨[("xs", .vector [.number 1, .number 2])], none, some "user", []⟩] rfl

theorem csize_pos : ∀ v : CljValue, 0 < csize v := by
  intro v
  cases v <;> simp [csize]

theorem csize_lt_of_mem : ∀ {v : CljValue} {vs : List CljValue}, v ∈ vs →
    csize v < csizeList vs := by
  intro v vs h
  induction vs with
  | nil => cases h
  | cons a t ih =>
    rcases List.mem_cons.mp h with rfl | h2
    · simp [csizeList]; omega
    · have := ih h2
      simp [csizeList]; omega

theorem csize_fst_lt_of_mem : ∀ {e : CljValue × CljValue}
    {es : List (CljValue × CljValue)}, e ∈ es → csize e.1 < csizeEntries es := by
  intro e es h
  induction es with
  | nil => cases h
  | cons a t ih =>
    rcases List.mem_cons.mp h with rfl | h2
    · simp [csizeEntries]; omega
    · have := ih h2
      simp [csizeEntries]; omega

theorem csize_snd_lt_of_mem : ∀ {e : CljValue × CljValue}
    {es : List (CljValue × CljValue)}, e ∈ es → csize e.2 < csizeEntries es := by
  intro e es h
  induction es with
  | nil => cases h
  | cons a t ih =>
    rcases List.mem_cons.mp h with rfl | h2
    · simp [csizeEntries]; omega
    · have := ih h2
      simp [csizeEntries]; omega

theorem csize_key_lt : ∀ {k : CljValue} {es : List (CljValue × CljValue)},
    k ∈ es.map Prod.fst → csize k < csizeEntries es := by
  intro k es h
  rcases List.mem_map.mp h with ⟨e, he, rfl⟩
  exact csize_fst_lt_of_mem he

theorem pairAll_congr : ∀ {eq1 eq2 : CljValue → CljValue → Bool}
    (xs ys : List CljValue), (∀ x ∈ xs, ∀ y ∈ ys, eq1 x y = eq2 x y) →
    pairAll eq1 xs ys = pairAll eq2 xs ys := by
  intro eq1 eq2 xs
  induction xs with
  | nil => intro ys h; cases ys <;> rfl
  | cons x xs ih =>
    intro ys h
    cases ys with
    | nil => rfl
    | cons y ys =>
      simp only [pairAll]
      rw [h x (List.mem_cons_self _ _) y (List.mem_cons_self _ _),
        ih ys fun a ha b hb => h a (List.mem_cons_of_mem _ ha) b (List.mem_cons_of_mem _ hb)]

theorem keyFind_congr : ∀ {eq1 eq2 : CljValue → CljValue → Bool} {k : CljValue}
    (l : List (CljValue × CljValue)), (∀ e ∈ l, eq1 e.1 k = eq2 e.1 k) →
    keyFind eq1 k l = keyFind eq2 k l := by
  intro eq1 eq2 k l
  induction l with
  | nil => intro _; rfl
  | cons e t ih =>
    intro h
    simp only [keyFind]
    rw [h e (List.mem_cons_self _ _)]
    by_cases hc : eq2 e.1 k = true
    · simp [hc]
    · simp only [Bool.not_eq_true] at hc
      simp [hc, ih fun a ha => h a (List.mem_cons_of_mem _ ha)]

theorem keyFind_mem : ∀ {eq : CljValue → CljValue → Bool} {k : CljValue}
    {l : List (CljValue × CljValue)} {e : CljValue × CljValue},
    keyFind eq k l = some e → e ∈ l := by
  intro eq k l
  induction l with
  | nil => intro e h; simp [keyFind] at h
  | cons a t ih =>
    intro e h
    simp only [keyFind] at h
    by_cases hc : eq a.1 k = true
    · rw [if_pos hc] at h
      exact (Option.some.injEq _ _ ▸ h) ▸ List.mem_cons_self _ _
    · rw [if_neg hc] at h
      exact List.mem_cons_of_mem _ (ih h)

theorem keysOk_congr : ∀ {eq1 eq2 : CljValue → CljValue → Bool}
    (keys : List CljValue) (ea eb : List (CljValue × CljValue)),
    (∀ k ∈ keys, ∀ e ∈ ea, eq1 e.1 k = eq2 e.1 k) →
    (∀ k ∈ keys, ∀ e ∈ eb, eq1 e.1 k = eq2 e.1 k) →
    (∀ e1 ∈ ea, ∀ e2 ∈ eb, eq1 e1.2 e2.2 = eq2 e1.2 e2.2) →
    keysOk eq1 keys ea eb = keysOk eq2 keys ea eb := by
  intro eq1 eq2 keys ea eb h1 h2 h3
  induction keys with
  | nil => rfl
  | cons k ks ih =>
    simp only [keysOk, List.all_cons] at *
    rw [keyFind_congr ea (h1 k (List.mem_cons_self _ _)),
      keyFind_congr eb (h2 k (List.mem_cons_self _ _))]
    have tail := ih (fun a ha e he => h1 a (List.mem_cons_of_mem _ ha) e he)
      (fun a ha e he => h2 a (List.mem_cons_of_mem _ ha) e he)
    rw [tail]
    rcases hf1 : keyFind eq2 k ea with _ | x
    · simp [hf1]
    · rcases hf2 : keyFind eq2 k eb with _ | y
      · simp [hf1, hf2]
      · simp only [hf1, hf2]
        rw [h3 x (keyFind_mem hf1) y (keyFind_mem hf2)]

theorem isEqualN_stable : ∀ n : Nat, ∀ (a b : CljValue) (m : Nat),
    eqFuel a b ≤ n → eqFuel a b ≤ m → isEqualN n a b = isEqualN m a b := by
  intro n
  induction n using Nat.strong_induction_on with
  | _ n IH =>
    intro a b m hn hm
    have hpa := csize_pos a
    have hfuel : 1 ≤ eqFuel a b := le_trans hpa (le_max_left _ _)
    cases n with
    | zero => omega
    | succ n' =>
      cases m with
      | zero => omega
      | succ m' =>
        simp only [isEqualN]
        cases a <;> cases b <;> try rfl
        case vector.vector xs ys =>
          dsimp only
          have hb : ∀ x ∈ xs, ∀ y ∈ ys, isEqualN n' x y = isEqualN m' x y := by
            intro x hx y hy
            have h1 := csize_lt_of_mem hx
            have h2 := csize_lt_of_mem hy
            have hfa : eqFuel (CljValue.vector xs) (CljValue.vector ys) =
                max (1 + csizeList xs) (1 + csizeList ys) := by
              simp [eqFuel, csize]
            rw [hfa] at hn hm
            have hxy : eqFuel x y = max (csize x) (csize y) := rfl
            have goal1 : eqFuel x y ≤ n' := by rw [hxy]; omega
            have goal2 : eqFuel x y ≤ m' := by rw [hxy]; omega
            exact IH n' (by omega) x y m' goal1 goal2
          rw [pairAll_congr xs ys hb]
        case list.list xs ys =>
          dsimp only
          have hb : ∀ x ∈ xs, ∀ y ∈ ys, isEqualN n' x y = isEqualN m' x y := by
            intro x hx y hy
            have h1 := csize_lt_of_mem hx
            have h2 := csize_lt_of_mem hy
            have hfa : eqFuel (CljValue.list xs) (CljValue.list ys) =
                max (1 + csizeList xs) (1 + csizeList ys) := by
              simp [eqFuel, csize]
            rw [hfa] at hn hm
            have hxy : eqFuel x y = max (csize x) (csize y) := rfl
            have goal1 : eqFuel x y ≤ n' := by rw [hxy]; omega
            have goal2 : eqFuel x y ≤ m' := by rw [hxy]; omega
            exact IH n' (by omega) x y m' goal1 goal2
          rw [pairAll_congr xs ys hb]
        case map.map ea eb =>
          dsimp only
          have hfa : eqFuel (CljValue.map ea) (CljValue.map eb) =
              max (1 + csizeEntries ea) (1 + csizeEntries eb) := by
            simp [eqFuel, csize]
          rw [hfa] at hn hm
          have hkey : ∀ k, csize k < max (csizeEntries ea) (csizeEntries eb) →
              ∀ e, csize e < max (csizeEntries ea) (csizeEntries eb) →
              isEqualN n' e k = isEqualN m' e k := by
            intro k hk e he2
            have hxy : eqFuel e k = max (csize e) (csize k) := rfl
            exact IH n' (by omega) e k m' (by rw [hxy]; omega) (by rw [hxy]; omega)
          have h1 : ∀ k ∈ ea.map Prod.fst ++ eb.map Prod.fst, ∀ e ∈ ea,
              isEqualN n' e.1 k = isEqualN m' e.1 k := by
            intro k hk e he
            rcases List.mem_append.mp hk with hk1 | hk1
            · exact hkey k (lt_of_lt_of_le (csize_key_lt hk1) (le_max_left _ _)) e.1
                (lt_of_lt_of_le (csize_fst_lt_of_mem he) (le_max_left _ _))
            · exact hkey k (lt_of_lt_of_le (csize_key_lt hk1) (le_max_right _ _)) e.1
                (lt_of_lt_of_le (csize_fst_lt_of_mem he) (le_max_left _ _))
          have h2 : ∀ k ∈ ea.map Prod.fst ++ eb.map Prod.fst, ∀ e ∈ eb,
              isEqualN n' e.1 k = isEqualN m' e.1 k := by
            intro k hk e he
            rcases List.mem_append.mp hk with hk1 | hk1
            · exact hkey k (lt_of_lt_of_le (csize_key_lt hk1) (le_max_left _ _)) e.1
                (lt_of_lt_of_le (csize_fst_lt_of_mem he) (le_max_right _ _))
            · exact hkey k (lt_of_lt_of_le (csize_key_lt hk1) (le_max_right _ _)) e.1
                (lt_of_lt_of_le (csize_fst_lt_of_mem he) (le_max_right _ _))
          have h3 : ∀ e1 ∈ ea, ∀ e2 ∈ eb, isEqualN n' e1.2 e2.2 = isEqualN m' e1.2 e2.2 := by
            intro e1 he1 e2 he2
            have hc1 := csize_snd_lt_of_mem he1
            have hc2 := csize_snd_lt_of_mem he2
            have hxy : eqFuel e1.2 e2.2 = max (csize e1.2) (csize e2.2) := rfl
            exact IH n' (by omega) e1.2 e2.2 m' (by rw [hxy]; omega) (by rw [hxy]; omega)
          rw [keysOk_congr (ea.map Prod.fst ++ eb.map Prod.fst) ea eb h1 h2 h3]

theorem isEqual_eq_isEqualN : ∀ (n : Nat) (a b : CljValue), eqFuel a b ≤ n →
    isEqualN n a b = isEqual a b :=
  fun n a b h => isEqualN_stable n a b (eqFuel a b) h le_rfl

theorem isEqual_map_eq : ∀ ea eb : List (CljValue × CljValue),
    isEqual (.map ea) (.map eb) =
      ((ea.length == eb.length) &&
        keysOk isEqual (ea.map Prod.fst ++ eb.map Prod.fst) ea eb) := by
  intro ea eb
  have hfa : eqFuel (CljValue.map ea) (CljValue.map eb) =
      max (csizeEntries ea) (csizeEntries eb) + 1 := by
    simp [eqFuel, csize]; omega
  unfold isEqual
  rw [hfa]
  simp only [isEqualN]
  congr 1
  apply keysOk_congr
  · intro k hk e he
    apply isEqual_eq_isEqualN
    have h1 : csize e.1 < csizeEntries ea := csize_fst_lt_of_mem he
    have h2 : csize k < max (csizeEntries ea) (csizeEntries eb) := by
      rcases List.mem_append.mp hk with hk1 | hk1
      · exact lt_of_lt_of_le (csize_key_lt hk1) (le_max_left _ _)
      · exact lt_of_lt_of_le (csize_key_lt hk1) (le_max_right _ _)
    have : eqFuel e.1 k = max (csize e.1) (csize k) := rfl
    omega
  · intro k hk e he
    apply isEqual_eq_isEqualN
    have h1 : csize e.1 < csizeEntries eb := csize_fst_lt_of_mem he
    have h2 : csize k < max (csizeEntries ea) (csizeEntries eb) := by
      rcases List.mem_append.mp hk with hk1 | hk1
      · exact lt_of_lt_of_le (csize_key_lt hk1) (le_max_left _ _)
      · exact lt_of_lt_of_le (csize_key_lt hk1) (le_max_right _ _)
    have : eqFuel e.1 k = max (csize e.1) (csize k) := rfl
    omega
  · intro e1 he1 e2 he2
    apply isEqual_eq_isEqualN
    have h1 : csize e1.2 < csizeEntries ea := csize_snd_lt_of_mem he1
    have h2 : csize e2.2 < csizeEntries eb := csize_snd_lt_of_mem he2
    have : eqFuel e1.2 e2.2 = max (csize e1.2) (csize e2.2) := rfl
    omega

theorem keysOk_isEqual_iff : ∀ (keys : List CljValue) (ea eb : List (CljValue × CljValue)),
    keysOk isEqual keys ea eb = true ↔ ∀ k ∈ keys, hasFirstVals ea eb k := by
  intro keys ea eb
  simp only [keysOk, List.all_eq_true]
  refine forall_congr' fun k => forall_congr' fun hk => ?_
  rcases hf1 : keyFind isEqual k ea with _ | x
  · simp [hasFirstVals, hf1]
  · rcases hf2 : keyFind isEqual k eb with _ | y
    · simp [hasFirstVals, hf1, hf2]
    · simp [hasFirstVals, hf1, hf2]

theorem isEqual_map_char : ∀ m1 m2 : List (CljValue × CljValue),
    isEqual (.map m1) (.map m2) = true ↔
      (m1.length = m2.length ∧
        ∀ k ∈ m1.map Prod.fst ++ m2.map Prod.fst, hasFirstVals m1 m2 k) := by
  intro m1 m2
  rw [isEqual_map_eq]
  simp [Bool.and_eq_true, keysOk_isEqual_iff]

theorem keyFind_eq_find? : ∀ (eq : CljValue → CljValue → Bool) (k : CljValue)
    (l : List (CljValue × CljValue)),
    keyFind eq k l = l.find? (fun e => eq e.1 k) := by
  intro eq k l
  induction l with
  | nil => rfl
  | cons e t ih =>
    simp only [keyFind, List.find?_cons]
    by_cases hc : eq e.1 k = true
    · simp [hc]
    · simp only [Bool.not_eq_true] at hc
      simp [hc, ih]

theorem find?_perm_of_unique : ∀ {α : Type} (p : α → Bool) {l l' : List α},
    l.Perm l' → l.countP p ≤ 1 → l.find? p = l'.find? p := by
  intro α p l l' hperm hcount
  cases hf : l.find? p with
  | none =>
    rw [List.find?_eq_none] at hf
    symm
    rw [List.find?_eq_none]
    intro x hx
    exact hf x (hperm.mem_iff.mpr hx)
  | some e =>
    have he : p e = true := List.find?_some hf
    have hmem : e ∈ l := List.mem_of_find?_eq_some hf
    cases hf' : l'.find? p with
    | none =>
      rw [List.find?_eq_none] at hf'
      exact absurd he (hf' e (hperm.mem_iff.mp hmem))
    | some e' =>
      have he' : p e' = true := List.find?_some hf'
      have hmem' : e' ∈ l := hperm.mem_iff.mpr (List.mem_of_find?_eq_some hf')
      have h1 : e ∈ l.filter p := List.mem_filter.mpr ⟨hmem, he⟩
      have h2 : e' ∈ l.filter p := List.mem_filter.mpr ⟨hmem', he'⟩
      have hlen : (l.filter p).length ≤ 1 := by
        rw [← List.countP_eq_length_filter]
        exact hcount
      rcases hfil : l.filter p with _ | ⟨x, t⟩
      · rw [hfil] at h1; cases h1
      · have hlen2 : (x :: t).length ≤ 1 := by rw [hfil] at hlen; exact hlen
        have ht : t = [] := by
          cases t with
          | nil => rfl
          | cons _ _ => simp at hlen2
        subst ht
        rw [hfil] at h1 h2
        simp at h1 h2
        rw [h1, h2]

theorem isEqual_map_perm : ∀ m1 m1' m2 m2' : List (CljValue × CljValue),
    m1.Perm m1' → m2.Perm m2' → uniquelyKeyed m1 → uniquelyKeyed m2 →
    isEqual (.map m1) (.map m2) = isEqual (.map m1') (.map m2') := by
  intro m1 m1' m2 m2' hp1 hp2 hu1 hu2
  have hk1 : ∀ k, keyFind isEqual k m1 = keyFind isEqual k m1' := fun k => by
    rw [keyFind_eq_find?, keyFind_eq_find?]
    exact find?_perm_of_unique _ hp1 (hu1 k)
  have hk2 : ∀ k, keyFind isEqual k m2 = keyFind isEqual k m2' := fun k => by
    rw [keyFind_eq_find?, keyFind_eq_find?]
    exact find?_perm_of_unique _ hp2 (hu2 k)
  have hkeyperm : (m1.map Prod.fst ++ m2.map Prod.fst).Perm
      (m1'.map Prod.fst ++ m2'.map Prod.fst) :=
    (hp1.map Prod.fst).append (hp2.map Prod.fst)
  have hiff : (isEqual (.map m1) (.map m2) = true) ↔
      (isEqual (.map m1') (.map m2') = true) := by
    rw [isEqual_map_char, isEqual_map_char]
    apply and_congr
    · rw [hp1.length_eq, hp2.length_eq]
    · constructor
      · intro h k hk
        have := h k (hkeyperm.mem_iff.mpr hk)
        unfold hasFirstVals at this ⊢
        rw [← hk1 k, ← hk2 k]
        exact this
      · intro h k hk
        have := h k (hkeyperm.mem_iff.mp hk)
        unfold hasFirstVals at this ⊢
        rw [hk1 k, hk2 k]
        exact this
  cases h1 : isEqual (.map m1) (.map m2) <;> cases h2 : isEqual (.map m1') (.map m2') <;>
    simp_all

theorem isEqualN_keyword : ∀ (n : Nat) (s : String) (k : CljValue),
    isEqualN n (.keyword s) k = true → k = .keyword s := by
  intro n s k h
  cases n with
  | zero => simp [isEqualN] at h
  | succ n =>
    cases k <;> simp [isEqualN] at h
    rw [h]

theorem isEqual_keyword_inv : ∀ (s : String) (k : CljValue),
    isEqual (.keyword s) k = true → k = .keyword s :=
  fun s k h => isEqualN_keyword _ s k h

theorem uniquelyKeyed_ab :
    uniquelyKeyed [((CljValue.keyword ":a"), CljValue.number 1),
      ((CljValue.keyword ":b"), CljValue.number 2)] := by
  intro k
  by_cases h1 : isEqual (CljValue.keyword ":a") k = true
  · have := isEqual_keyword_inv _ _ h1
    subst this
    decide
  · by_cases h2 : isEqual (CljValue.keyword ":b") k = true
    · simp [List.countP_cons, h1, h2]
    · simp [List.countP_cons, h1, h2]

/-- Claim C4 (counterexample): the map `{:a 1, :a 1}` (two physically stored
entries) and `{:a 1}` have the same key set by recursive structural equality
and equal values at the key, yet `isEqual` returns `false` because the entry
counts differ; and for maps with structurally duplicate keys equality is not
insertion-order independent: `{:a 1, :a 1}` equals `{:a 1, :a 2}` but not its
permutation `{:a 2, :a 1}`. -/
theorem map_equality_counterexample :
    sameKeySetEqualValues
      [((CljValue.keyword ":a"), CljValue.number 1), ((CljValue.keyword ":a"), CljValue.number 1)]
      [((CljValue.keyword ":a"), CljValue.number 1)] ∧
    isEqual (.map [((CljValue.keyword ":a"), CljValue.number 1), ((CljValue.keyword ":a"), CljValue.number 1)])
      (.map [((CljValue.keyword ":a"), CljValue.number 1)]) = false ∧
    List.Perm [((CljValue.keyword ":a"), CljValue.number 1), ((CljValue.keyword ":a"), CljValue.number 2)]
      [((CljValue.keyword ":a"), CljValue.number 2), ((CljValue.keyword ":a"), CljValue.number 1)] ∧
    isEqual (.map [((CljValue.keyword ":a"), CljValue.number 1), ((CljValue.keyword ":a"), CljValue.number 1)])
      (.map [((CljValue.keyword ":a"), CljValue.number 1), ((CljValue.keyword ":a"), CljValue.number 2)]) = true ∧
    isEqual (.map [((CljValue.keyword ":a"), CljValue.number 1), ((CljValue.keyword ":a"), CljValue.number 1)])
      (.map [((CljValue.keyword ":a"), CljValue.number 2), ((CljValue.keyword ":a"), CljValue.number 1)]) = false := by
  refine ⟨⟨?_, ?_, ?_⟩, rfl, List.Perm.swap _ _ _, rfl, rfl⟩
  · intro e he
    rcases List.mem_cons.mp he with rfl | he2
    · exact ⟨((CljValue.keyword ":a"), CljValue.number 1), List.mem_cons_self _ _, by decide⟩
    · rcases List.mem_cons.mp he2 with rfl | he3
      · exact ⟨((CljValue.keyword ":a"), CljValue.number 1), List.mem_cons_self _ _, by decide⟩
      · cases he3
  · intro e he
    rcases List.mem_cons.mp he with rfl | he2
    · exact ⟨((CljValue.keyword ":a"), CljValue.number 1), List.mem_cons_self _ _, by decide⟩
    · cases he2
  · intro k e1 e2 h1 h2
    by_cases h : isEqual (CljValue.keyword ":a") k = true
    · simp [keyFind, h] at h1 h2
      rw [← h1, ← h2]
      decide
    · simp [keyFind, h] at h1

/-- Claim C4 (amended): `isEqual` on two maps is true iff they store the same
number of entries and, for every key occurring in either map, both maps have
a first structurally-matching entry and those entries' values are
structurally equal.  Insertion-order independence holds whenever no
candidate key structurally matches more than one entry of each map (in
particular for duplicate-free maps); the counterexample shows it fails for
maps with structurally duplicate keys, and that equal key sets with
different physical entry counts compare unequal. -/
theorem map_equality_amended :
    (∀ m1 m2 : List (CljValue × CljValue),
      isEqual (.map m1) (.map m2) = true ↔
        (m1.length = m2.length ∧
          ∀ k ∈ m1.map Prod.fst ++ m2.map Prod.fst, hasFirstVals m1 m2 k)) ∧
    (∀ m1 m1' m2 m2' : List (CljValue × CljValue),
      m1.Perm m1' → m2.Perm m2' → uniquelyKeyed m1 → uniquelyKeyed m2 →
      isEqual (.map m1) (.map m2) = isEqual (.map m1') (.map m2')) :=
  ⟨isEqual_map_char, isEqual_map_perm⟩

/-- Claim C4 (amended) witness: order independence applied to the
duplicate-free map `{:a 1, :b 2}` and its permutation, compared against
`{:a 1}`. -/
theorem map_equality_amended_witness :
    isEqual (.map [((CljValue.keyword ":a"), CljValue.number 1)])
        (.map [((CljValue.keyword ":a"), CljValue.number 1),
          ((CljValue.keyword ":b"), CljValue.number 2)]) =
      isEqual (.map [((CljValue.keyword ":a"), CljValue.number 1)])
        (.map [((CljValue.keyword ":b"), CljValue.number 2),
          ((CljValue.keyword ":a"), CljValue.number 1)]) :=
  map_equality_amended.2 _ _ _ _ (List.Perm.refl _) (List.Perm.swap _ _ _)
    (fun k => le_trans (List.countP_le_length _) (by simp))
    uniquelyKeyed_ab

end CljI
